import Mathlib

/-!
Shallow embedding of the blackbox flight-log frame decoder (src/src/parser.c)
and proofs about its integer codecs, predictor engine, frame dispatcher and
resynchronisation state machine.

Byte streams are modelled as a list of byte values with a cursor position and
a sticky end-of-input flag. 32-bit machine words are `Nat` values reduced
modulo `2 ^ 32` (the unsigned bit pattern); where C reinterprets them as
signed we convert explicitly. Paths on which the C code calls `exit(-1)` are
modelled with an error result.
-/

set_option maxHeartbeats 1600000

namespace Blackbox

/-- Modelled from the spec: `FLIGHT_LOG_MAX_FIELDS` comes from parser.h, which
is not under src/. The spec only bounds field vectors by a cap `FIELD_CAP`;
we fix the buffer size used for history-ring rows. Its exact value is
irrelevant to the claims. -/
def FLIGHT_LOG_MAX_FIELDS : Nat := 128

/-- The iteration counter lives at field position 0 (spec §3: "Field position
0 is the iteration counter"; `FLIGHT_LOG_FIELD_INDEX_ITERATION` in the missing
parser.h). -/
def FLIGHT_LOG_FIELD_INDEX_ITERATION : Nat := 0

/-- The timestamp lives at field position 1 (spec §3; parser.h constant). -/
def FLIGHT_LOG_FIELD_INDEX_TIME : Nat := 1

/-- Forward-only byte reader over a contiguous region (spec §4.1; the
`logStart`/`logPos`/`logEnd`/`eof` fields of `flightLogPrivate_t`).
`data` is the byte region, `pos` the offset of the next byte to read. -/
structure Cursor where
  data : List Nat
  pos : Nat
  eof : Bool
deriving DecidableEq

/-- `readChar` (parser.c): return the next byte (as a nonnegative `Int`), or
`-1` (EOF) with the sticky `eof` flag set. The `(uint8_t)` load is mirrored
by reducing the stored value mod 256. -/
def readChar (c : Cursor) : Int × Cursor :=
  if c.pos < c.data.length then
    (Int.ofNat ((c.data.getD c.pos 0) % 256), { c with pos := c.pos + 1 })
  else
    (-1, { c with eof := true })

/-- A `readChar` whose result is immediately stored into a `uint8_t` variable
(as in the tag codecs): EOF (-1) becomes 255 under C's unsigned-char
conversion. -/
def readByte (c : Cursor) : Nat × Cursor :=
  let r := readChar c
  ((r.1.emod 256).toNat, r.2)

/-- Reinterpret a 32-bit unsigned pattern as a signed `int32_t` value. -/
def toInt32 (n : Nat) : Int :=
  let m : Nat := n % 2 ^ 32
  if m < 2 ^ 31 then (m : Int) else (m : Int) - 2 ^ 32

/-- The 32-bit pattern of the `Int` value `z` (C's conversion to `uint32_t`). -/
def toU32 (z : Int) : Nat := (z.emod (2 ^ 32)).toNat

/-- Unsigned 32-bit wrap-around addition of a `uint32_t` pattern and a C `int`. -/
def addU32 (a : Nat) (b : Int) : Nat := toU32 ((a : Int) + b)

/-- Unsigned 32-bit arithmetic negation, `(uint32_t) -x`. -/
def negU32 (a : Nat) : Nat := (2 ^ 32 - a % 2 ^ 32) % 2 ^ 32

/-- Modelled from the spec: the sign-extension helpers (`signExtend2Bit`,
`signExtend4Bit`, `signExtend6Bit`, `signExtend14Bit`, `signExtend24Bit`)
live in tools.h/tools.c, which are not under src/. Spec §4.2: "treat the top
bit of the N-bit field as a sign bit and extend". The result is returned as
a 32-bit unsigned pattern. -/
def signExtendBits (bits v : Nat) : Nat :=
  let w := v % 2 ^ bits
  if w < 2 ^ (bits - 1) then w else w + (2 ^ 32 - 2 ^ bits)

def signExtend2Bit (v : Nat) : Nat := signExtendBits 2 v

def signExtend4Bit (v : Nat) : Nat := signExtendBits 4 v

def signExtend6Bit (v : Nat) : Nat := signExtendBits 6 v

def signExtend14Bit (v : Nat) : Nat := signExtendBits 14 v

def signExtend24Bit (v : Nat) : Nat := signExtendBits 24 v

/-- The pattern of `(int32_t)(int8_t) b` for a byte `b`. -/
def signExtendByte (v : Nat) : Nat := signExtendBits 8 v

/-- The pattern of `(int32_t)(int16_t) h` for a 16-bit half-word `h`. -/
def signExtendHalf (v : Nat) : Nat := signExtendBits 16 v

/-- `readUnsignedVB` (parser.c): base-128 varint decoder. The loop body for
one of the (at most 5) iterations; `fuel` counts the remaining iterations.
On EOF it returns 0; after 5 continuation bytes it gives up and returns 0
("This VB-encoded int is too long"). The C expression
`result | ((c & ~0x80) << shift)` is computed in 32-bit wrap-around
arithmetic. -/
def readUnsignedVBAux : Nat → Nat → Nat → Cursor → Nat × Cursor
  | 0, _, _, cur => (0, cur)
  | fuel + 1, shift, result, cur =>
    let r := readChar cur
    if r.1 < 0 then (0, r.2)
    else
      let result' := (result ||| ((r.1.toNat &&& 0x7F) <<< shift)) % 2 ^ 32
      if r.1 < 128 then (result', r.2)
      else readUnsignedVBAux fuel (shift + 7) result' r.2

def readUnsignedVB (cur : Cursor) : Nat × Cursor := readUnsignedVBAux 5 0 0 cur

/-- ZigZag decoding `(i >> 1) ^ -(int32_t)(i & 1)` on 32-bit patterns. -/
def zigzagDecode (i : Nat) : Nat :=
  (i >>> 1) ^^^ (if i % 2 = 1 then 0xFFFFFFFF else 0)

/-- `readSignedVB` (parser.c): unsigned varint followed by ZigZag decoding.
The result is the `int32_t` bit pattern. -/
def readSignedVB (cur : Cursor) : Nat × Cursor :=
  let r := readUnsignedVB cur
  (zigzagDecode r.1, r.2)

/-- One field of `readTag2_3S32` case 3: width selected by the low two bits
of the (shifted) lead byte: 8, 16, 24 or 32-bit little-endian signed. -/
def tag2Case3Field (cur : Cursor) (mode : Nat) : Nat × Cursor :=
  match mode with
  | 0 =>
    let r := readByte cur
    (signExtendByte r.1, r.2)
  | 1 =>
    let r1 := readByte cur
    let r2 := readByte r1.2
    (signExtendHalf (r1.1 ||| (r2.1 <<< 8)), r2.2)
  | 2 =>
    let r1 := readByte cur
    let r2 := readByte r1.2
    let r3 := readByte r2.2
    (signExtend24Bit (r1.1 ||| (r2.1 <<< 8) ||| (r3.1 <<< 16)), r3.2)
  | _ =>
    let r1 := readByte cur
    let r2 := readByte r1.2
    let r3 := readByte r2.2
    let r4 := readByte r3.2
    ((r1.1 ||| (r2.1 <<< 8) ||| (r3.1 <<< 16) ||| (r4.1 <<< 24)) % 2 ^ 32, r4.2)

/-- The `for (i = 0; i < 3; i++)` loop of `readTag2_3S32` case 3; the selector
is shifted right by two bits after each field. -/
def tag2Case3Loop (sel : Nat) (cur : Cursor) : Nat → List Nat × Cursor
  | 0 => ([], cur)
  | n + 1 =>
    let r := tag2Case3Field cur (sel &&& 0x03)
    let rest := tag2Case3Loop (sel >>> 2) r.2 n
    (r.1 :: rest.1, rest.2)

/-- `readTag2_3S32` (parser.c): three signed values; the top two bits of the
lead byte select the layout. Values are returned as 32-bit patterns. -/
def readTag2_3S32 (cur : Cursor) : List Nat × Cursor :=
  let r0 := readByte cur
  let leadByte := r0.1
  match leadByte >>> 6 with
  | 0 =>
    ([signExtend2Bit ((leadByte >>> 4) &&& 0x03),
      signExtend2Bit ((leadByte >>> 2) &&& 0x03),
      signExtend2Bit (leadByte &&& 0x03)], r0.2)
  | 1 =>
    let r1 := readByte r0.2
    ([signExtend4Bit (leadByte &&& 0x0F),
      signExtend4Bit (r1.1 >>> 4),
      signExtend4Bit (r1.1 &&& 0x0F)], r1.2)
  | 2 =>
    let r1 := readByte r0.2
    let r2 := readByte r1.2
    ([signExtend6Bit (leadByte &&& 0x3F),
      signExtend6Bit (r1.1 &&& 0x3F),
      signExtend6Bit (r2.1 &&& 0x3F)], r2.2)
  | _ => tag2Case3Loop leadByte r0.2 3

/-- The four-iteration loop of `readTag8_4S16_v1` (parser.c). The selector's
low two bits pick the field width; a 4-bit pair fills two slots from one
byte (with the inner `i++; selector >>= 2`). `fuel` bounds the remaining
loop entries (each entry advances `i` by at least one, so 4 suffices). -/
def tag8v1Loop (cur : Cursor) (sel i : Nat) (values : List Nat) :
    Nat → List Nat × Cursor
  | 0 => (values, cur)
  | fuel + 1 =>
    if i < 4 then
      match sel &&& 0x03 with
      | 0 => tag8v1Loop cur (sel >>> 2) (i + 1) (values.set i 0) fuel
      | 1 =>
        let r := readByte cur
        let values := values.set i (signExtend4Bit (r.1 &&& 0x0F))
        let values := values.set (i + 1) (signExtend4Bit (r.1 >>> 4))
        tag8v1Loop r.2 (sel >>> 4) (i + 2) values fuel
      | 2 =>
        let r := readByte cur
        tag8v1Loop r.2 (sel >>> 2) (i + 1) (values.set i (signExtendByte r.1)) fuel
      | _ =>
        let r1 := readByte cur
        let r2 := readByte r1.2
        tag8v1Loop r2.2 (sel >>> 2) (i + 1)
          (values.set i (signExtendHalf (r1.1 ||| (r2.1 <<< 8)))) fuel
    else (values, cur)

/-- `readTag8_4S16_v1` (parser.c): selector byte with four 2-bit width codes. -/
def readTag8_4S16_v1 (cur : Cursor) : List Nat × Cursor :=
  let r := readByte cur
  tag8v1Loop r.2 r.1 0 (List.replicate 8 0) 4

/-- The four-iteration loop of `readTag8_4S16_v2` (parser.c): like v1 but
nibble-aligned, carrying a rolling half-byte `buffer` and `nibbleIndex`. -/
def tag8v2Loop (cur : Cursor) (sel nibbleIndex buffer i : Nat) (values : List Nat) :
    Nat → List Nat × Cursor
  | 0 => (values, cur)
  | fuel + 1 =>
    if i < 4 then
      match sel &&& 0x03 with
      | 0 => tag8v2Loop cur (sel >>> 2) nibbleIndex buffer (i + 1) (values.set i 0) fuel
      | 1 =>
        if nibbleIndex = 0 then
          let r := readByte cur
          tag8v2Loop r.2 (sel >>> 2) 1 r.1 (i + 1)
            (values.set i (signExtend4Bit (r.1 >>> 4))) fuel
        else
          tag8v2Loop cur (sel >>> 2) 0 buffer (i + 1)
            (values.set i (signExtend4Bit (buffer &&& 0x0F))) fuel
      | 2 =>
        if nibbleIndex = 0 then
          let r := readByte cur
          tag8v2Loop r.2 (sel >>> 2) nibbleIndex buffer (i + 1)
            (values.set i (signExtendByte r.1)) fuel
        else
          let char1 := (buffer <<< 4) % 256
          let r := readByte cur
          let char1 := char1 ||| (r.1 >>> 4)
          tag8v2Loop r.2 (sel >>> 2) nibbleIndex r.1 (i + 1)
            (values.set i (signExtendByte char1)) fuel
      | _ =>
        if nibbleIndex = 0 then
          let r1 := readByte cur
          let r2 := readByte r1.2
          tag8v2Loop r2.2 (sel >>> 2) nibbleIndex buffer (i + 1)
            (values.set i (signExtendHalf ((r1.1 <<< 8) ||| r2.1))) fuel
        else
          let r1 := readByte cur
          let r2 := readByte r1.2
          tag8v2Loop r2.2 (sel >>> 2) nibbleIndex r2.1 (i + 1)
            (values.set i
              (signExtendHalf (((buffer <<< 12) ||| (r1.1 <<< 4) ||| (r2.1 >>> 4)) % 2 ^ 16)))
            fuel
    else (values, cur)

/-- `readTag8_4S16_v2` (parser.c). -/
def readTag8_4S16_v2 (cur : Cursor) : List Nat × Cursor :=
  let r := readByte cur
  tag8v2Loop r.2 r.1 0 0 0 (List.replicate 8 0) 4

/-- The eight-iteration loop of `readTag8_8SVB`: each header bit selects a
signed varint (bit clear means zero). -/
def tag8svbLoop (cur : Cursor) (header i : Nat) (values : List Nat) :
    Nat → List Nat × Cursor
  | 0 => (values, cur)
  | fuel + 1 =>
    let r := if header &&& 0x01 = 1 then readSignedVB cur else (0, cur)
    tag8svbLoop r.2 (header >>> 1) (i + 1) (values.set i r.1) fuel

/-- `readTag8_8SVB` (parser.c): a single signed varint when the group has one
member, otherwise a header byte followed by the selected varints. -/
def readTag8_8SVB (cur : Cursor) (valueCount : Nat) : List Nat × Cursor :=
  if valueCount = 1 then
    let r := readSignedVB cur
    ((List.replicate 8 0).set 0 r.1, r.2)
  else
    let r := readByte cur
    tag8svbLoop r.2 r.1 0 (List.replicate 8 0) 8

/-- Field predictors (`FLIGHT_LOG_FIELD_PREDICTOR_*`). The numeric tags live
in parser.h (not under src/); behaviour is dispatched on the enum. `other`
stands for any unsupported tag (the C `default:` branch calls `exit`). -/
inductive Predictor where
  | zero
  | previous
  | straightLine
  | average2
  | minthrottle
  | motor0
  | vbatRef
  | fixed1500
  | homeCoord
  | homeCoord1
  | inc
  | other (tag : Int)
deriving DecidableEq

/-- Field encodings (`FLIGHT_LOG_FIELD_ENCODING_*`, parser.h not under src/). -/
inductive Encoding where
  | signedVB
  | unsignedVB
  | neg14Bit
  | tag8_4S16
  | tag2_3S32
  | tag8_8SVB
  | null
  | other (tag : Int)
deriving DecidableEq

/-- Per-frame-kind encoding/predictor vectors (`flightLogFrameDefs_t`). -/
structure FrameDef where
  predictor : Nat → Predictor
  encoding : Nat → Encoding

/-- The header-derived, data-phase-read-only state of a parse: calibration
constants, frame-rate parameters, field counts/signedness, resolved named
field indexes and the frame definitions (spec §3 "Log header state";
fields of `flightLog_t` / `flightLogPrivate_t`). `maxFrameLength` stands for
the compile-time constant `FLIGHT_LOG_MAX_FRAME_LENGTH` from the missing
parser.h. -/
structure Config where
  frameIntervalI : Int
  frameIntervalPNum : Int
  frameIntervalPDenom : Int
  minthrottle : Int
  vbatref : Int
  vbatscale : Int
  vbatmaxcellvoltage : Int
  mainFieldSigned : Nat → Bool
  motor0Index : Int
  home0Index : Int
  home1Index : Int
  mainFieldCount : Nat
  gpsFieldCount : Nat
  gpsHomeFieldCount : Nat
  dataVersion : Int
  frameDefs : Nat → FrameDef
  maxFrameLength : Nat

/-- `shouldHaveFrame` (parser.c): frame-rate filter on the iteration index.
C's `%` on `int` truncates toward zero, i.e. `Int.tmod`. -/
def shouldHaveFrame (cfg : Config) (frameIndex : Int) : Bool :=
  (frameIndex.tmod cfg.frameIntervalI + cfg.frameIntervalPNum - 1).tmod
      cfg.frameIntervalPDenom < cfg.frameIntervalPNum

/-- `applyPrediction` (parser.c): turn a decoded residual `value` into an
absolute value. All additions are 32-bit wrap-around; `current` is the
partially decoded frame, `gpsHomePub` the published GPS-home slot
(`gpsHomeHistory[1]`). The `exit(-1)` paths (unresolved `motor[0]` /
`GPS_home` index, unknown predictor) become `Except.error ()`. -/
def applyPrediction (cfg : Config) (fieldIndex : Nat) (p : Predictor)
    (value : Nat) (current : List Nat) (previous previous2 : Option (List Nat))
    (gpsHomePub : List Nat) : Except Unit Nat :=
  match p with
  | .zero => .ok value
  | .minthrottle => .ok (addU32 value cfg.minthrottle)
  | .fixed1500 => .ok ((value + 1500) % 2 ^ 32)
  | .motor0 =>
    if cfg.motor0Index < 0 then .error ()
    else .ok ((value + current.getD cfg.motor0Index.toNat 0) % 2 ^ 32)
  | .vbatRef => .ok (addU32 value cfg.vbatref)
  | .previous =>
    match previous with
    | none => .ok value
    | some prev => .ok ((value + prev.getD fieldIndex 0) % 2 ^ 32)
  | .straightLine =>
    match previous with
    | none => .ok value
    | some prev =>
      let pp := (previous2.getD []).getD fieldIndex 0
      .ok (toU32 ((value : Int) + 2 * (prev.getD fieldIndex 0 : Int) - (pp : Int)))
  | .average2 =>
    match previous with
    | none => .ok value
    | some prev =>
      let pp := (previous2.getD []).getD fieldIndex 0
      if cfg.mainFieldSigned fieldIndex then
        .ok (addU32 value ((toInt32 ((prev.getD fieldIndex 0 + pp) % 2 ^ 32)).tdiv 2))
      else
        .ok ((value + ((prev.getD fieldIndex 0 + pp) % 2 ^ 32) / 2) % 2 ^ 32)
  | .homeCoord =>
    if cfg.home0Index < 0 then .error ()
    else .ok ((value + gpsHomePub.getD cfg.home0Index.toNat 0) % 2 ^ 32)
  | .homeCoord1 =>
    if cfg.home1Index < 1 then .error ()
    else .ok ((value + gpsHomePub.getD cfg.home1Index.toNat 0) % 2 ^ 32)
  | .inc => .error ()
  | .other _ => .error ()

/-- The look-ahead of `parseFrame`'s TAG8_8SVB case: how many subsequent
adjacent positions (up to 7 more, bounded by `mainFieldCount` even for
non-main frames, as in the C code) share the TAG8_8SVB encoding. -/
def tag8GroupCountAux (enc : Nat → Encoding) (mainFieldCount : Nat) :
    Nat → Nat → Nat
  | 0, _ => 0
  | fuel + 1, j =>
    if j < mainFieldCount ∧ enc j = .tag8_8SVB then
      1 + tag8GroupCountAux enc mainFieldCount fuel (j + 1)
    else 0

def tag8GroupCount (enc : Nat → Encoding) (mainFieldCount i : Nat) : Nat :=
  1 + tag8GroupCountAux enc mainFieldCount 7 (i + 1)

/-- Apply the per-lane predictors after decoding a grouped encoding (the
inner `for (j = ...; j++, i++)` loops of `parseFrame`): returns the next
field index and the updated frame, or an error if a predictor aborts. -/
def applyGroup (cfg : Config) (raw : Bool) (pred : Nat → Predictor)
    (previous previous2 : Option (List Nat)) (gpsHomePub : List Nat) :
    List Nat → Nat → List Nat → Except Unit (Nat × List Nat)
  | [], i, frame => .ok (i, frame)
  | v :: vs, i, frame => do
    let x ← applyPrediction cfg i (if raw then .zero else pred i) v frame
      previous previous2 gpsHomePub
    applyGroup cfg raw pred previous previous2 gpsHomePub vs (i + 1) (frame.set i x)

/-- The body of `parseFrame`'s `while (i < fieldCount)` loop. `fuel` bounds
the number of remaining loop entries: every entry advances `i` by at least
one, so `fieldCount` iterations always suffice and the fuel-exhausted case is
unreachable whenever `fuel ≥ fieldCount - i`. -/
def parseFrameAux (cfg : Config) (ft : Nat) (previous previous2 : Option (List Nat))
    (gpsHomePub : List Nat) (fieldCount skippedFrames : Nat) (raw : Bool) :
    Nat → Nat → List Nat → Cursor → Except Unit (List Nat × Cursor)
  | 0, _, frame, cur => .ok (frame, cur)
  | fuel + 1, i, frame, cur =>
    if i < fieldCount then
      if (cfg.frameDefs ft).predictor i = .inc then
        let base := match previous with
          | some prev => prev.getD i 0
          | none => 0
        let v := (skippedFrames + 1 + base) % 2 ^ 32
        parseFrameAux cfg ft previous previous2 gpsHomePub fieldCount skippedFrames raw
          fuel (i + 1) (frame.set i v) cur
      else
        match (cfg.frameDefs ft).encoding i with
        | .signedVB =>
          let r := readSignedVB cur
          match applyPrediction cfg i (if raw then .zero else (cfg.frameDefs ft).predictor i)
              r.1 frame previous previous2 gpsHomePub with
          | .error e => .error e
          | .ok x =>
            parseFrameAux cfg ft previous previous2 gpsHomePub fieldCount skippedFrames raw
              fuel (i + 1) (frame.set i x) r.2
        | .unsignedVB =>
          let r := readUnsignedVB cur
          match applyPrediction cfg i (if raw then .zero else (cfg.frameDefs ft).predictor i)
              r.1 frame previous previous2 gpsHomePub with
          | .error e => .error e
          | .ok x =>
            parseFrameAux cfg ft previous previous2 gpsHomePub fieldCount skippedFrames raw
              fuel (i + 1) (frame.set i x) r.2
        | .neg14Bit =>
          let r := readUnsignedVB cur
          match applyPrediction cfg i (if raw then .zero else (cfg.frameDefs ft).predictor i)
              (negU32 (signExtend14Bit r.1)) frame previous previous2 gpsHomePub with
          | .error e => .error e
          | .ok x =>
            parseFrameAux cfg ft previous previous2 gpsHomePub fieldCount skippedFrames raw
              fuel (i + 1) (frame.set i x) r.2
        | .tag8_4S16 =>
          let r := if cfg.dataVersion < 2 then readTag8_4S16_v1 cur else readTag8_4S16_v2 cur
          match applyGroup cfg raw (cfg.frameDefs ft).predictor previous previous2 gpsHomePub
              (r.1.take 4) i frame with
          | .error e => .error e
          | .ok st =>
            parseFrameAux cfg ft previous previous2 gpsHomePub fieldCount skippedFrames raw
              fuel st.1 st.2 r.2
        | .tag2_3S32 =>
          let r := readTag2_3S32 cur
          match applyGroup cfg raw (cfg.frameDefs ft).predictor previous previous2 gpsHomePub
              (r.1.take 3) i frame with
          | .error e => .error e
          | .ok st =>
            parseFrameAux cfg ft previous previous2 gpsHomePub fieldCount skippedFrames raw
              fuel st.1 st.2 r.2
        | .tag8_8SVB =>
          let groupCount := tag8GroupCount (cfg.frameDefs ft).encoding cfg.mainFieldCount i
          let r := readTag8_8SVB cur groupCount
          match applyGroup cfg raw (cfg.frameDefs ft).predictor previous previous2 gpsHomePub
              (r.1.take groupCount) i frame with
          | .error e => .error e
          | .ok st =>
            parseFrameAux cfg ft previous previous2 gpsHomePub fieldCount skippedFrames raw
              fuel st.1 st.2 r.2
        | .null =>
          match applyPrediction cfg i (if raw then .zero else (cfg.frameDefs ft).predictor i)
              0 frame previous previous2 gpsHomePub with
          | .error e => .error e
          | .ok x =>
            parseFrameAux cfg ft previous previous2 gpsHomePub fieldCount skippedFrames raw
              fuel (i + 1) (frame.set i x) cur
        | .other _ => .error ()
    else .ok (frame, cur)

/-- `parseFrame` (parser.c): decode one frame of kind `ft` into `frame`. -/
def parseFrame (cfg : Config) (ft : Nat) (frame : List Nat)
    (previous previous2 : Option (List Nat)) (gpsHomePub : List Nat)
    (fieldCount skippedFrames : Nat) (raw : Bool) (cur : Cursor) :
    Except Unit (List Nat × Cursor) :=
  parseFrameAux cfg ft previous previous2 gpsHomePub fieldCount skippedFrames raw
    fieldCount 0 frame cur

/-- The main-frame history: the three-row ring `blackboxHistoryRing` plus the
three `mainHistory` pointers. `h0` is the row currently being decoded into;
`h1`/`h2` are the previous / previous-previous rows (`none` models the NULL
pointers installed by `flightLoginvalidateStream`), and `valid` is
`mainStreamIsValid`. -/
structure MainState where
  ring0 : List Nat
  ring1 : List Nat
  ring2 : List Nat
  h0 : Nat
  h1 : Option Nat
  h2 : Option Nat
  valid : Bool
deriving DecidableEq

/-- Read ring row `k` (row indexes are taken mod 3, matching the wrap of the
`mainHistory[0]` pointer over the three-row ring). -/
def ringGet (m : MainState) (k : Nat) : List Nat :=
  if k % 3 = 0 then m.ring0 else if k % 3 = 1 then m.ring1 else m.ring2

/-- Overwrite ring row `k`. -/
def ringSetAt (m : MainState) (k : Nat) (v : List Nat) : MainState :=
  if k % 3 = 0 then { m with ring0 := v }
  else if k % 3 = 1 then { m with ring1 := v }
  else { m with ring2 := v }

/-- `flightLoginvalidateStream` (parser.c): clear the valid flag and both
back-history pointers. -/
def flightLoginvalidateStream (m : MainState) : MainState :=
  { m with valid := false, h1 := none, h2 := none }

/-- The `lastEvent` record (`flightLogEvent_t`): the event kind plus the
payload slots of the kind-specific union (modelled as separate fields). -/
structure EventRec where
  kind : Int
  syncBeepTime : Nat
  atPhase : Nat
  atCycle : Nat
  atP : Nat
  atI : Nat
  atD : Nat
  atOvershot : Nat
deriving DecidableEq

/-- One delivered callback. `frameReady` mirrors the onFrameReady parameters
(validity flag, field vector or none, frame-kind marker byte, field count,
frame offset, frame byte size); `eventReady` mirrors onEvent. The embedding
records every callback invocation (the callbacks-present case). -/
inductive Event where
  | frameReady (valid : Bool) (fields : Option (List Nat)) (marker : Nat)
      (fieldCount : Nat) (offset : Nat) (size : Nat)
  | eventReady (rec : EventRec)
deriving DecidableEq

/-- The statistics of `flightLogStatistics_t` that the data phase touches.
Per-marker counters are total functions from the marker byte. -/
structure Stats where
  fieldMax : Nat → Int
  fieldMin : Nat → Int
  validCount : Nat → Nat
  corruptCount : Nat → Nat
  desyncCount : Nat → Nat
  bytesCount : Nat → Nat
  sizeCount : Nat → Nat → Nat
  totalCorruptFrames : Nat
  totalBytes : Nat
  intentionallyAbsentIterations : Nat

/-- Increment a per-marker counter. -/
def bump (f : Nat → Nat) (k : Nat) : Nat → Nat :=
  fun j => if j = k then f j + 1 else f j

/-- The mutable state of the `PARSER_STATE_DATA` loop of `flightLogParse`:
cursor, history, GPS state, last event, statistics, the one-frame-behind
bookkeeping (`lastFrameType`, `frameStart`, `prematureEof`) and the trace of
callbacks delivered so far. -/
structure LoopState where
  cur : Cursor
  main : MainState
  gpsHome0 : List Nat
  gpsHome1 : List Nat
  gpsHomeValid : Bool
  lastGPS : List Nat
  lastEvent : EventRec
  stats : Stats
  lastFrameType : Option Nat
  frameStart : Nat
  prematureEof : Bool
  events : List Event

/-- Append one callback to the trace. -/
def emit (s : LoopState) (e : Event) : LoopState :=
  { s with events := s.events ++ [e] }

/-- Result of one parse routine: `ok` continues, `fatal` models `exit(-1)`,
`diverge` models an infinite loop (the skipped-iterations search failing to
terminate). -/
inductive PRes (α : Type) where
  | ok (a : α)
  | fatal (a : α)
  | diverge (a : α)

/-- The parse-routine result state, whatever the outcome. -/
def PRes.out : PRes LoopState → LoopState
  | .ok s => s
  | .fatal s => s
  | .diverge s => s

/-- The `for (frameIndex = previous[ITERATION] + 1; !shouldHaveFrame(...);
frameIndex++) skippedFrames++` loop of parseIntraframe / parseInterframe.
`frameIndex` is a `uint32_t` (wraps at `2 ^ 32`) converted to `int32_t` at
the call. `none` means the loop did not finish within `fuel` steps; with
`fuel = 2 ^ 32` the index has then visited every 32-bit value, so `none`
means the C loop never exits. -/
def skipLoopAux (cfg : Config) : Nat → Nat → Option Nat
  | 0, _ => none
  | fuel + 1, idx =>
    if shouldHaveFrame cfg (toInt32 idx) then some 0
    else (skipLoopAux cfg fuel ((idx + 1) % 2 ^ 32)).map (· + 1)

def SKIP_FUEL : Nat := 2 ^ 32

/-- `parseIntraframe` (parser.c): count intentionally absent iterations when
a previous frame exists, then decode the I frame into ring row `h0`
(predictors see `previous = mainHistory[1]`, `previous2 = NULL`). -/
def parseIntraframe (cfg : Config) (raw : Bool) (s : LoopState) : PRes LoopState :=
  let current := ringGet s.main s.main.h0
  let previous := s.main.h1.map (ringGet s.main)
  match previous with
  | some prev =>
    match skipLoopAux cfg SKIP_FUEL ((prev.getD FLIGHT_LOG_FIELD_INDEX_ITERATION 0 + 1) % 2 ^ 32) with
    | none => .diverge s
    | some skippedFrames =>
      let s := { s with stats := { s.stats with
        intentionallyAbsentIterations := s.stats.intentionallyAbsentIterations + skippedFrames } }
      match parseFrame cfg 73 current previous none s.gpsHome1 cfg.mainFieldCount
          skippedFrames raw s.cur with
      | .error _ => .fatal s
      | .ok r => .ok { s with cur := r.2, main := ringSetAt s.main s.main.h0 r.1 }
  | none =>
    match parseFrame cfg 73 current previous none s.gpsHome1 cfg.mainFieldCount 0 raw s.cur with
    | .error _ => .fatal s
    | .ok r => .ok { s with cur := r.2, main := ringSetAt s.main s.main.h0 r.1 }

/-- `parseInterframe` (parser.c): like parseIntraframe but predictors see
both back-history rows. In the C code the absent-iteration count is added to
the stats outside the `if (previous)`; with no previous frame the count is
0, which the `+ 0` in the no-previous arm mirrors. -/
def parseInterframe (cfg : Config) (raw : Bool) (s : LoopState) : PRes LoopState :=
  let current := ringGet s.main s.main.h0
  let previous := s.main.h1.map (ringGet s.main)
  let previous2 := s.main.h2.map (ringGet s.main)
  match previous with
  | some prev =>
    match skipLoopAux cfg SKIP_FUEL ((prev.getD FLIGHT_LOG_FIELD_INDEX_ITERATION 0 + 1) % 2 ^ 32) with
    | none => .diverge s
    | some skippedFrames =>
      let s := { s with stats := { s.stats with
        intentionallyAbsentIterations := s.stats.intentionallyAbsentIterations + skippedFrames } }
      match parseFrame cfg 80 current previous previous2 s.gpsHome1 cfg.mainFieldCount
          skippedFrames raw s.cur with
      | .error _ => .fatal s
      | .ok r => .ok { s with cur := r.2, main := ringSetAt s.main s.main.h0 r.1 }
  | none =>
    let s := { s with stats := { s.stats with
      intentionallyAbsentIterations := s.stats.intentionallyAbsentIterations + 0 } }
    match parseFrame cfg 80 current previous previous2 s.gpsHome1 cfg.mainFieldCount
        0 raw s.cur with
    | .error _ => .fatal s
    | .ok r => .ok { s with cur := r.2, main := ringSetAt s.main s.main.h0 r.1 }

/-- `parseGPSFrame` (parser.c). -/
def parseGPSFrame (cfg : Config) (raw : Bool) (s : LoopState) : PRes LoopState :=
  match parseFrame cfg 71 s.lastGPS none none s.gpsHome1 cfg.gpsFieldCount 0 raw s.cur with
  | .error _ => .fatal s
  | .ok r => .ok { s with cur := r.2, lastGPS := r.1 }

/-- `parseGPSHomeFrame` (parser.c): decode into the unpublished home slot. -/
def parseGPSHomeFrame (cfg : Config) (raw : Bool) (s : LoopState) : PRes LoopState :=
  match parseFrame cfg 72 s.gpsHome0 none none s.gpsHome1 cfg.gpsHomeFieldCount 0 raw s.cur with
  | .error _ => .fatal s
  | .ok r => .ok { s with cur := r.2, gpsHome0 := r.1 }

/-- Modelled from the spec: the numeric tags of the three known event kinds
(`FLIGHT_LOG_EVENT_*` in parser.h, not under src/). The spec fixes which
kinds exist and their payloads; the tag values are taken as 0 / 10 / 11. -/
def FLIGHT_LOG_EVENT_SYNC_BEEP : Nat := 0

def FLIGHT_LOG_EVENT_AUTOTUNE_CYCLE_START : Nat := 10

def FLIGHT_LOG_EVENT_AUTOTUNE_CYCLE_RESULT : Nat := 11

/-- `parseEventFrame` (parser.c): one byte of event kind, then a
kind-dependent body; an unknown kind overwrites the stored kind with the
`-1` sentinel and reads nothing further. -/
def parseEventFrame (cfg : Config) (raw : Bool) (s : LoopState) : PRes LoopState :=
  let r := readByte s.cur
  let eventType := r.1
  if eventType = FLIGHT_LOG_EVENT_SYNC_BEEP then
    let t := readUnsignedVB r.2
    .ok { s with
          cur := t.2,
          lastEvent := { s.lastEvent with kind := (eventType : Int), syncBeepTime := t.1 } }
  else if eventType = FLIGHT_LOG_EVENT_AUTOTUNE_CYCLE_START then
    let b1 := readByte r.2
    let b2 := readByte b1.2
    let b3 := readByte b2.2
    let b4 := readByte b3.2
    let b5 := readByte b4.2
    .ok { s with
          cur := b5.2,
          lastEvent := { s.lastEvent with
                         kind := (eventType : Int), atPhase := b1.1,
                         atCycle := b2.1, atP := b3.1, atI := b4.1, atD := b5.1 } }
  else if eventType = FLIGHT_LOG_EVENT_AUTOTUNE_CYCLE_RESULT then
    let b1 := readByte r.2
    let b2 := readByte b1.2
    let b3 := readByte b2.2
    let b4 := readByte b3.2
    .ok { s with
          cur := b4.2,
          lastEvent := { s.lastEvent with
                         kind := (eventType : Int), atOvershot := b1.1,
                         atP := b2.1, atI := b3.1, atD := b4.1 } }
  else
    .ok { s with cur := r.2, lastEvent := { s.lastEvent with kind := -1 } }

/-- `updateFieldStatistics`'s initialisation pass, index `n - 1` down to 0. -/
def statsFieldInit (cfg : Config) (fields : List Nat) :
    Nat → (Nat → Int) → (Nat → Int) → (Nat → Int) × (Nat → Int)
  | 0, fmax, fmin => (fmax, fmin)
  | n + 1, fmax, fmin =>
    let x : Int := if cfg.mainFieldSigned n then toInt32 (fields.getD n 0)
      else (fields.getD n 0 : Int)
    statsFieldInit cfg fields n (fun j => if j = n then x else fmax j)
      (fun j => if j = n then x else fmin j)

/-- `updateFieldStatistics`'s tightening pass. -/
def statsFieldTighten (cfg : Config) (fields : List Nat) :
    Nat → (Nat → Int) → (Nat → Int) → (Nat → Int) × (Nat → Int)
  | 0, fmax, fmin => (fmax, fmin)
  | n + 1, fmax, fmin =>
    let x : Int := if cfg.mainFieldSigned n then toInt32 (fields.getD n 0)
      else (fields.getD n 0 : Int)
    statsFieldTighten cfg fields n
      (fun j => if j = n then (if x > fmax n then x else fmax n) else fmax j)
      (fun j => if j = n then (if x < fmin n then x else fmin n) else fmin j)

/-- `updateFieldStatistics` (parser.c): on the first validated main frame
initialise per-field min/max, afterwards tighten them (signed or unsigned
comparison per the field's signedness). -/
def updateFieldStatistics (cfg : Config) (st : Stats) (fields : List Nat) : Stats :=
  if st.validCount 73 + st.validCount 80 ≤ 1 then
    let fm := statsFieldInit cfg fields cfg.mainFieldCount st.fieldMax st.fieldMin
    { st with fieldMax := fm.1, fieldMin := fm.2 }
  else
    let fm := statsFieldTighten cfg fields cfg.mainFieldCount st.fieldMax st.fieldMin
    { st with fieldMax := fm.1, fieldMin := fm.2 }

/-- `completeIntraframe` (parser.c): accept the keyframe iff `raw` or both
the iteration counter and the timestamp are at or above the recorded maxima
(compared as `uint32_t` against the stats entries); on acceptance mark the
main stream valid and update the field statistics, otherwise invalidate the
stream. Emit onFrameReady, then on a valid stream rotate the ring: both
back-history pointers become the keyframe's row and `h0` advances. -/
def completeIntraframe (cfg : Config) (raw : Bool) (s : LoopState)
    (frameStart frameEnd : Nat) : LoopState :=
  let cur0 := ringGet s.main s.main.h0
  let accept := raw ∨
    ((cur0.getD FLIGHT_LOG_FIELD_INDEX_ITERATION 0 : Int) ≥
        s.stats.fieldMax FLIGHT_LOG_FIELD_INDEX_ITERATION ∧
     (cur0.getD FLIGHT_LOG_FIELD_INDEX_TIME 0 : Int) ≥
        s.stats.fieldMax FLIGHT_LOG_FIELD_INDEX_TIME)
  let s := if accept then
      { s with
        main := { s.main with valid := true },
        stats := updateFieldStatistics cfg s.stats cur0 }
    else
      { s with main := flightLoginvalidateStream s.main }
  let s := emit s (.frameReady s.main.valid (some cur0) 73 cfg.mainFieldCount
    frameStart (frameEnd - frameStart))
  if s.main.valid then
    { s with main := { s.main with
                       h1 := some s.main.h0, h2 := some s.main.h0,
                       h0 := (s.main.h0 + 1) % 3 } }
  else s

/-- `completeInterframe` (parser.c): on a valid stream update field
statistics, otherwise count a desync; never sets the valid flag ("Receiving
a P frame can't resynchronise the stream"). Emit onFrameReady, then on a
valid stream rotate the history. -/
def completeInterframe (cfg : Config) (raw : Bool) (s : LoopState)
    (frameStart frameEnd : Nat) : LoopState :=
  let s := if s.main.valid then
      { s with stats := updateFieldStatistics cfg s.stats (ringGet s.main s.main.h0) }
    else
      { s with stats := { s.stats with desyncCount := bump s.stats.desyncCount 80 } }
  let s := emit s (.frameReady s.main.valid (some (ringGet s.main s.main.h0)) 80
    cfg.mainFieldCount frameStart (frameEnd - frameStart))
  if s.main.valid then
    { s with main := { s.main with
                       h2 := s.main.h1, h1 := some s.main.h0,
                       h0 := (s.main.h0 + 1) % 3 } }
  else s

/-- `completeEventFrame` (parser.c): unconditionally deliver the stored
event record through onEvent. -/
def completeEventFrame (s : LoopState) : LoopState :=
  emit s (.eventReady s.lastEvent)

/-- `completeGPSHomeFrame` (parser.c): publish the decoded home frame, mark
navigation-home valid and emit onFrameReady with validity `true`. -/
def completeGPSHomeFrame (cfg : Config) (s : LoopState)
    (frameStart frameEnd : Nat) : LoopState :=
  let s := { s with gpsHome1 := s.gpsHome0, gpsHomeValid := true }
  emit s (.frameReady true (some s.gpsHome1) 72 cfg.gpsHomeFieldCount
    frameStart (frameEnd - frameStart))

/-- `completeGPSFrame` (parser.c): emit onFrameReady whose validity flag is
the current navigation-home-valid flag. -/
def completeGPSFrame (cfg : Config) (s : LoopState)
    (frameStart frameEnd : Nat) : LoopState :=
  emit s (.frameReady s.gpsHomeValid (some s.lastGPS) 71 cfg.gpsFieldCount
    frameStart (frameEnd - frameStart))

/-- Dispatch on `lastFrameType->complete` (the frameTypes table). -/
def completeFrame (cfg : Config) (raw : Bool) (marker frameStart frameEnd : Nat)
    (s : LoopState) : LoopState :=
  if marker = 73 then completeIntraframe cfg raw s frameStart frameEnd
  else if marker = 80 then completeInterframe cfg raw s frameStart frameEnd
  else if marker = 71 then completeGPSFrame cfg s frameStart frameEnd
  else if marker = 72 then completeGPSHomeFrame cfg s frameStart frameEnd
  else if marker = 69 then completeEventFrame s
  else s

/-- Dispatch on `frameType->parse` (the frameTypes table). -/
def parseDispatch (cfg : Config) (raw : Bool) (marker : Nat) (s : LoopState) :
    PRes LoopState :=
  if marker = 73 then parseIntraframe cfg raw s
  else if marker = 80 then parseInterframe cfg raw s
  else if marker = 71 then parseGPSFrame cfg raw s
  else if marker = 72 then parseGPSHomeFrame cfg raw s
  else parseEventFrame cfg raw s

/-- `getFrameType(c) != NULL`: is `c` one of the five frame-kind markers
'I' 'P' 'G' 'H' 'E'? -/
def isFrameMarker (c : Int) : Bool :=
  c = 73 ∨ c = 80 ∨ c = 71 ∨ c = 72 ∨ c = 69

/-- Update the per-kind byte / size-histogram / valid-count statistics for a
well-formed frame (the three statements before `lastFrameType->complete`). -/
def updateFrameStats (s : LoopState) (marker size : Nat) : LoopState :=
  { s with stats := { s.stats with
      bytesCount := fun j => if j = marker then s.stats.bytesCount j + size
        else s.stats.bytesCount j,
      sizeCount := fun j sz => if j = marker ∧ sz = size then s.stats.sizeCount j sz + 1
        else s.stats.sizeCount j sz,
      validCount := bump s.stats.validCount marker } }

/-- Result of one `while (1)` iteration of the DATA phase: continue, reach
`goto done`, abort fatally (`exit(-1)` inside a parse routine) or hang in the
skipped-iterations loop. -/
inductive StepRes where
  | next (s : LoopState)
  | done (s : LoopState)
  | fatal (s : LoopState)
  | diverge (s : LoopState)

/-- The state carried by a step result. -/
def StepRes.state : StepRes → LoopState
  | .next s => s
  | .done s => s
  | .fatal s => s
  | .diverge s => s

/-- The tail of a DATA iteration after the completion/corruption block
(parser.c lines 1199-1215): terminate on EOF, otherwise record the new
`frameStart`, parse a known frame kind or invalidate the stream on an
unknown byte, note a premature EOF, and remember the frame kind. -/
def dataStepTail (cfg : Config) (raw : Bool) (command : Int) (s : LoopState) : StepRes :=
  if command = -1 then
    .done { s with stats := { s.stats with totalBytes := s.cur.data.length } }
  else
    let marker := command.toNat % 256
    let s := { s with frameStart := s.cur.pos }
    if isFrameMarker command then
      match parseDispatch cfg raw marker s with
      | .fatal s' => .fatal s'
      | .diverge s' => .diverge s'
      | .ok s' =>
        let s' := if s'.cur.eof then { s' with prematureEof := true } else s'
        .next { s' with lastFrameType := some marker }
    else
      let s := { s with main := { s.main with valid := false } }
      let s := if s.cur.eof then { s with prematureEof := true } else s
      .next { s with lastFrameType := none }

/-- The `looksLikeFrameCompleted` test of the DATA loop: the byte just read
starts a known frame kind (`frameType`, which is NULL when the byte was
EOF), or we hit a clean EOF (no premature EOF during the frame's parse). -/
def looksLikeFrameCompleted (prematureEof : Bool) (command : Int) : Prop :=
  (if command = -1 then false else isFrameMarker command) = true ∨
    (¬prematureEof = true ∧ command = -1)

instance (p : Bool) (c : Int) : Decidable (looksLikeFrameCompleted p c) := by
  unfold looksLikeFrameCompleted
  infer_instance

/-- One iteration of the `while (1)` loop of `flightLogParse` in the DATA
state (parser.c lines 1113-1216): read the next marker byte; if a frame is
in progress, either complete it (well-formed: its size fits in
`maxFrameLength` and the byte after it starts a known frame or is a clean
EOF) or treat it as corrupt (invalidate the stream, count it, emit the
corrupt onFrameReady with no field vector, rewind to `frameStart`, clear the
EOF state and continue); then handle the byte just read. -/
def dataStep (cfg : Config) (raw : Bool) (s0 : LoopState) : StepRes :=
  let rc := readChar s0.cur
  let command := rc.1
  let s := { s0 with cur := rc.2 }
  match s.lastFrameType with
  | some lastMarker =>
    let lastFrameSize := s.cur.pos - s.frameStart
    if lastFrameSize ≤ cfg.maxFrameLength ∧ looksLikeFrameCompleted s.prematureEof command then
      let s := updateFrameStats s lastMarker lastFrameSize
      let s := completeFrame cfg raw lastMarker s.frameStart s.cur.pos s
      dataStepTail cfg raw command s
    else
      let s := { s with
                 main := { s.main with valid := false },
                 stats := { s.stats with
                            corruptCount := bump s.stats.corruptCount lastMarker,
                            totalCorruptFrames := s.stats.totalCorruptFrames + 1 } }
      let s := emit s (.frameReady false none lastMarker 0 s.frameStart lastFrameSize)
      .next { s with
              cur := { s.cur with pos := s.frameStart, eof := false },
              lastFrameType := none, prematureEof := false }
  | none => dataStepTail cfg raw command s

/-- Outcome of running the DATA loop with bounded fuel. -/
inductive RunOutcome where
  | finished
  | fatal
  | diverge
  | outOfFuel
deriving DecidableEq

/-- Iterate `dataStep` (the DATA phase of `flightLogParse`). -/
def runData (cfg : Config) (raw : Bool) : Nat → LoopState → LoopState × RunOutcome
  | 0, s => (s, .outOfFuel)
  | fuel + 1, s =>
    match dataStep cfg raw s with
    | .next s' => runData cfg raw fuel s'
    | .done s' => (s', .finished)
    | .fatal s' => (s', .fatal)
    | .diverge s' => (s', .diverge)

/-- `flightLogVbatToMillivolts` (parser.c): `(vbat * 330 * vbatscale) / 0xFFF`
with `vbat` a `uint16_t`, computed in `int` and returned as `unsigned int`. -/
def flightLogVbatToMillivolts (cfg : Config) (vbat : Nat) : Nat :=
  toU32 ((((vbat % 2 ^ 16 : Nat) : Int) * 330 * cfg.vbatscale).tdiv 4095)

/-- The `for (i = 1; i < 8; i++) { if (refVoltage < i * vbatmaxcellvoltage)
break; }` loop of `flightLogEstimateNumCells`; 7 loop entries happen before
`i` reaches 8. -/
def cellsLoop (refVoltage vmax : Int) : Nat → Nat → Nat
  | 0, i => i
  | fuel + 1, i =>
    if i < 8 then
      (if refVoltage < (i : Int) * vmax then i else cellsLoop refVoltage vmax fuel (i + 1))
    else i

/-- The `refVoltage` computed by `flightLogEstimateNumCells`: millivolts of
`vbatref` (as a `uint16_t`) divided by 100 (unsigned division, stored into a
C `int`). -/
def estimateRefVoltage (cfg : Config) : Int :=
  ((flightLogVbatToMillivolts cfg (cfg.vbatref.emod (2 ^ 16)).toNat) / 100 : Nat)

/-- `flightLogEstimateNumCells` (parser.c). -/
def flightLogEstimateNumCells (cfg : Config) : Nat :=
  cellsLoop (estimateRefVoltage cfg) cfg.vbatmaxcellvoltage 7 1

/-- A concrete header state with the documented defaults of `flightLogParse`
(minthrottle 1150, vbatref 4095, vbatscale 110, vbatmaxcellvoltage 43,
I interval 32, P interval 1/1, unresolved named-field indexes) and a trivial
one-field unsigned-varint main frame definition; used as a test fixture. -/
def defaultConfig : Config := {
  frameIntervalI := 32, frameIntervalPNum := 1, frameIntervalPDenom := 1,
  minthrottle := 1150, vbatref := 4095, vbatscale := 110, vbatmaxcellvoltage := 43,
  mainFieldSigned := fun _ => false, motor0Index := -1, home0Index := -1, home1Index := -1,
  mainFieldCount := 1, gpsFieldCount := 0, gpsHomeFieldCount := 0, dataVersion := 1,
  frameDefs := fun _ => { predictor := fun _ => .zero, encoding := fun _ => .unsignedVB },
  maxFrameLength := 256 }

/-- The state in which the DATA phase starts on a byte region `data`: zeroed
ring and statistics, invalid stream, no frame in progress, empty trace
(mirroring the resets at the top of `flightLogParse` and the
HEADER-to-DATA transition). -/
def initialLoopState (data : List Nat) : LoopState := {
  cur := ⟨data, 0, false⟩,
  main := { ring0 := List.replicate FLIGHT_LOG_MAX_FIELDS 0,
            ring1 := List.replicate FLIGHT_LOG_MAX_FIELDS 0,
            ring2 := List.replicate FLIGHT_LOG_MAX_FIELDS 0,
            h0 := 0, h1 := none, h2 := none, valid := false },
  gpsHome0 := List.replicate FLIGHT_LOG_MAX_FIELDS 0,
  gpsHome1 := List.replicate FLIGHT_LOG_MAX_FIELDS 0,
  gpsHomeValid := false,
  lastGPS := List.replicate FLIGHT_LOG_MAX_FIELDS 0,
  lastEvent := { kind := -1, syncBeepTime := 0, atPhase := 0, atCycle := 0,
                 atP := 0, atI := 0, atD := 0, atOvershot := 0 },
  stats := { fieldMax := fun _ => 0, fieldMin := fun _ => 0, validCount := fun _ => 0,
             corruptCount := fun _ => 0, desyncCount := fun _ => 0,
             bytesCount := fun _ => 0, sizeCount := fun _ _ => 0,
             totalCorruptFrames := 0, totalBytes := 0,
             intentionallyAbsentIterations := 0 },
  lastFrameType := none, frameStart := 0, prematureEof := false, events := [] }

/-- Modelled from the spec: the base-128 varint encoder. The source only
contains the decoder; spec §4.2 fixes the wire format (base-128 varint,
low-order groups first, high bit of each byte marks continuation). -/
def encodeUnsignedVB (n : Nat) : List Nat :=
  if n < 128 then [n] else (n % 128 + 128) :: encodeUnsignedVB (n / 128)
termination_by n
decreasing_by exact Nat.div_lt_self (by omega) (by omega)

theorem encodeUnsignedVB_small {n : Nat} (h : n < 128) : encodeUnsignedVB n = [n] := by
  rw [encodeUnsignedVB]
  simp [h]

theorem encodeUnsignedVB_large {n : Nat} (h : ¬n < 128) :
    encodeUnsignedVB n = (n % 128 + 128) :: encodeUnsignedVB (n / 128) := by
  rw [encodeUnsignedVB]
  simp [h]

theorem encodeUnsignedVB_length_le :
    ∀ k n : Nat, 1 ≤ k → n < 128 ^ k → (encodeUnsignedVB n).length ≤ k := by
  intro k
  induction k with
  | zero => omega
  | succ k ih =>
    intro n _ hn
    by_cases h : n < 128
    · simp [encodeUnsignedVB_small h]
    · rw [encodeUnsignedVB_large h]
      have hk : 1 ≤ k := by
        by_contra hk0
        have : k = 0 := by omega
        subst this
        simp [pow_succ, pow_zero] at hn
        omega
      have hdiv : n / 128 < 128 ^ k := by
        rw [Nat.div_lt_iff_lt_mul (by omega)]
        calc n < 128 ^ (k + 1) := hn
        _ = 128 ^ k * 128 := by ring
      simpa using Nat.add_le_add_right (ih (n / 128) hk hdiv) 1


/-- `readChar` at a position materialised as the length of a prefix. -/
theorem readChar_at (pre : List Nat) (b : Nat) (t : List Nat) (e : Bool) :
    readChar ⟨pre ++ b :: t, pre.length, e⟩ =
      (Int.ofNat (b % 256), ⟨pre ++ b :: t, pre.length + 1, e⟩) := by
  have hlt : pre.length < (pre ++ b :: t).length := by
    simp [List.length_append]
  have hget : (pre ++ b :: t).getD pre.length 0 = b := by
    rw [List.getD_append_right _ _ _ _ (le_refl _)]
    simp
  unfold readChar
  rw [if_pos hlt, hget]

/-- One decoder-loop entry on a final varint byte (high bit clear). -/
theorem readUnsignedVBAux_last (fuel shift result : Nat) (pre : List Nat)
    (b : Nat) (t : List Nat) (e : Bool) (hb : b < 128) :
    readUnsignedVBAux (fuel + 1) shift result ⟨pre ++ b :: t, pre.length, e⟩ =
      ((result ||| ((b &&& 0x7F) <<< shift)) % 2 ^ 32,
        ⟨pre ++ b :: t, pre.length + 1, e⟩) := by
  have hb256 : b % 256 = b := Nat.mod_eq_of_lt (by omega)
  have h0 : ¬((b : Int) < 0) := not_lt.mpr (Int.ofNat_nonneg b)
  have h128 : ((b : Int) < 128) := by exact_mod_cast hb
  simp only [readUnsignedVBAux, readChar_at pre b t e, hb256, Int.ofNat_eq_coe,
    h0, if_false, h128, if_true, Int.toNat_ofNat]

/-- One decoder-loop entry on a continuation byte (high bit set). -/
theorem readUnsignedVBAux_cont (fuel shift result : Nat) (pre : List Nat)
    (b : Nat) (t : List Nat) (e : Bool) (hb : 128 ≤ b) (hb' : b < 256) :
    readUnsignedVBAux (fuel + 1) shift result ⟨pre ++ b :: t, pre.length, e⟩ =
      readUnsignedVBAux fuel (shift + 7)
        ((result ||| ((b &&& 0x7F) <<< shift)) % 2 ^ 32)
        ⟨pre ++ b :: t, pre.length + 1, e⟩ := by
  have hb256 : b % 256 = b := Nat.mod_eq_of_lt hb'
  have h0 : ¬((b : Int) < 0) := not_lt.mpr (Int.ofNat_nonneg b)
  have h128 : ¬((b : Int) < 128) := by
    push_neg
    exact_mod_cast hb
  simp only [readUnsignedVBAux, readChar_at pre b t e, hb256, Int.ofNat_eq_coe,
    h0, if_false, h128, Int.toNat_ofNat]

/-- Bits of `result` below `shift` OR-combined with a shifted-in group add up. -/
theorem or_shiftLeft_eq_add {result m shift : Nat} (hres : result < 2 ^ shift) :
    result ||| (m <<< shift) = result + m * 2 ^ shift := by
  have h2 := Nat.mul_add_lt_is_or hres m
  calc result ||| m <<< shift
      = result ||| 2 ^ shift * m := by rw [Nat.shiftLeft_eq, Nat.mul_comm]
    _ = 2 ^ shift * m ||| result := Nat.lor_comm _ _
    _ = 2 ^ shift * m + result := h2.symm
    _ = result + m * 2 ^ shift := by ring

/-- The varint decoding loop undoes the encoder: starting with `result`
(all of whose bits lie below `shift`) and enough fuel, the decoder consumes
exactly the encoding of `n` and accumulates `result + n * 2 ^ shift`. -/
theorem readUnsignedVBAux_encode :
    ∀ n pre fuel shift result (rest : List Nat) (e : Bool),
      (encodeUnsignedVB n).length ≤ fuel →
      result < 2 ^ shift →
      result + n * 2 ^ shift < 2 ^ 32 →
      readUnsignedVBAux fuel shift result ⟨pre ++ (encodeUnsignedVB n ++ rest), pre.length, e⟩ =
        (result + n * 2 ^ shift,
          ⟨pre ++ (encodeUnsignedVB n ++ rest), pre.length + (encodeUnsignedVB n).length, e⟩) := by
  intro n
  induction n using Nat.strong_induction_on with
  | _ n ih =>
    intro pre fuel shift result rest e hfuel hres hlt
    by_cases hsmall : n < 128
    · rw [encodeUnsignedVB_small hsmall] at hfuel ⊢
      obtain ⟨fuel', rfl⟩ : ∃ f, fuel = f + 1 := by
        cases fuel
        · simp at hfuel
        · exact ⟨_, rfl⟩
      have hcons : pre ++ ([n] ++ rest) = pre ++ n :: rest := by simp
      rw [hcons, readUnsignedVBAux_last fuel' shift result pre n rest e hsmall]
      have hand : n &&& 0x7F = n := by
        have h127 : (0x7F : Nat) = 2 ^ 7 - 1 := by norm_num
        rw [h127, Nat.and_pow_two_sub_one_eq_mod]
        exact Nat.mod_eq_of_lt (by omega)
      rw [hand, or_shiftLeft_eq_add hres, Nat.mod_eq_of_lt hlt]
      simp
    · rw [encodeUnsignedVB_large hsmall] at hfuel ⊢
      obtain ⟨fuel', rfl⟩ : ∃ f, fuel = f + 1 := by
        cases fuel
        · simp at hfuel
        · exact ⟨_, rfl⟩
      have hb : 128 ≤ n % 128 + 128 := by omega
      have hb' : n % 128 + 128 < 256 := by omega
      have hcons : pre ++ ((n % 128 + 128) :: encodeUnsignedVB (n / 128) ++ rest) =
          pre ++ (n % 128 + 128) :: (encodeUnsignedVB (n / 128) ++ rest) := by simp
      rw [hcons, readUnsignedVBAux_cont fuel' shift result pre (n % 128 + 128)
        (encodeUnsignedVB (n / 128) ++ rest) e hb hb']
      have hand : (n % 128 + 128) &&& 0x7F = n % 128 := by
        have h127 : (0x7F : Nat) = 2 ^ 7 - 1 := by norm_num
        rw [h127, Nat.and_pow_two_sub_one_eq_mod]
        omega
      have hmlen : n % 128 ≤ n := Nat.mod_le n 128
      have hsum : result + (n % 128) * 2 ^ shift ≤ result + n * 2 ^ shift :=
        Nat.add_le_add_left (Nat.mul_le_mul_right _ hmlen) result
      have hres' : (result ||| ((n % 128) <<< shift)) % 2 ^ 32 =
          result + (n % 128) * 2 ^ shift := by
        rw [or_shiftLeft_eq_add hres, Nat.mod_eq_of_lt (by omega)]
      rw [hand, hres']
      have hdecomp : n % 128 + 128 * (n / 128) = n := Nat.mod_add_div n 128
      have hres2 : result + (n % 128) * 2 ^ shift < 2 ^ (shift + 7) := by
        have : (n % 128) * 2 ^ shift ≤ 127 * 2 ^ shift :=
          Nat.mul_le_mul_right _ (by omega)
        have hpow : 2 ^ (shift + 7) = 2 ^ shift * 128 := by rw [pow_add]; norm_num
        omega
      have hval : (result + (n % 128) * 2 ^ shift) + (n / 128) * 2 ^ (shift + 7) =
          result + n * 2 ^ shift := by
        have hpow : 2 ^ (shift + 7) = 2 ^ shift * 128 := by rw [pow_add]; norm_num
        calc (result + (n % 128) * 2 ^ shift) + (n / 128) * 2 ^ (shift + 7)
            = result + ((n % 128) + 128 * (n / 128)) * 2 ^ shift := by rw [hpow]; ring
          _ = result + n * 2 ^ shift := by rw [hdecomp]
      have hfuel' : (encodeUnsignedVB (n / 128)).length ≤ fuel' := by
        simp at hfuel
        omega
      have hlt' : (result + (n % 128) * 2 ^ shift) + (n / 128) * 2 ^ (shift + 7) < 2 ^ 32 := by
        rw [hval]
        exact hlt
      have hdivlt : n / 128 < n := Nat.div_lt_self (by omega) (by omega)
      have hpre : (pre ++ [n % 128 + 128]).length = pre.length + 1 := by simp
      have := ih (n / 128) hdivlt (pre ++ [n % 128 + 128]) fuel' (shift + 7)
        (result + (n % 128) * 2 ^ shift) rest e hfuel' hres2 hlt'
      rw [hpre] at this
      have happ : (pre ++ [n % 128 + 128]) ++ (encodeUnsignedVB (n / 128) ++ rest) =
          pre ++ (n % 128 + 128) :: (encodeUnsignedVB (n / 128) ++ rest) := by simp
      rw [happ] at this
      rw [this, hval]
      have hlen : pre.length + 1 + (encodeUnsignedVB (n / 128)).length =
          pre.length + ((n % 128 + 128) :: encodeUnsignedVB (n / 128)).length := by
        simp
        omega
      rw [hlen]

/-- Decoding a run of continuation bytes (high bit set) that exhausts the
fuel consumes them and returns 0. -/
theorem readUnsignedVBAux_allcont :
    ∀ (bs : List Nat) (pre rest : List Nat) (shift result : Nat) (e : Bool),
      (∀ b ∈ bs, 128 ≤ b ∧ b < 256) →
      readUnsignedVBAux bs.length shift result ⟨pre ++ (bs ++ rest), pre.length, e⟩ =
        (0, ⟨pre ++ (bs ++ rest), pre.length + bs.length, e⟩) := by
  intro bs
  induction bs with
  | nil =>
    intro pre rest shift result e _
    simp [readUnsignedVBAux]
  | cons b bs ih =>
    intro pre rest shift result e hall
    have hb := hall b (by simp)
    have hcons : pre ++ ((b :: bs) ++ rest) = pre ++ b :: (bs ++ rest) := by simp
    simp only [List.length_cons, hcons]
    rw [readUnsignedVBAux_cont bs.length shift result pre b (bs ++ rest) e hb.1 hb.2]
    have hrec := ih (pre ++ [b]) rest (shift + 7)
      ((result ||| ((b &&& 0x7F) <<< shift)) % 2 ^ 32) e (fun x hx => hall x (by simp [hx]))
    have happ : (pre ++ [b]) ++ (bs ++ rest) = pre ++ b :: (bs ++ rest) := by simp
    have hlen : (pre ++ [b]).length = pre.length + 1 := by simp
    rw [happ, hlen] at hrec
    rw [hrec]
    have : pre.length + 1 + bs.length = pre.length + (bs.length + 1) := by omega
    rw [this]

/-- C5: for every `n` below `2 ^ 32`, decoding the base-128 varint encoding
of `n` with the UNSIGNED_VB decoder (`readUnsignedVB`) yields `n`, consuming
exactly the encoding; and a varint whose continuation bits extend it beyond
5 bytes (five bytes with the high bit set) decodes to 0. -/
theorem c5_unsigned_vb_roundtrip :
    (∀ (n : Nat) (rest : List Nat), n < 2 ^ 32 →
      readUnsignedVB ⟨encodeUnsignedVB n ++ rest, 0, false⟩ =
        (n, ⟨encodeUnsignedVB n ++ rest, (encodeUnsignedVB n).length, false⟩)) ∧
    (∀ b1 b2 b3 b4 b5 : Nat, ∀ rest : List Nat,
      128 ≤ b1 → b1 < 256 → 128 ≤ b2 → b2 < 256 → 128 ≤ b3 → b3 < 256 →
      128 ≤ b4 → b4 < 256 → 128 ≤ b5 → b5 < 256 →
      (readUnsignedVB ⟨b1 :: b2 :: b3 :: b4 :: b5 :: rest, 0, false⟩).1 = 0) := by
  constructor
  · intro n rest hn
    have hlen : (encodeUnsignedVB n).length ≤ 5 :=
      encodeUnsignedVB_length_le 5 n (by norm_num) (by
        calc n < 2 ^ 32 := hn
          _ < 128 ^ 5 := by norm_num)
    have h := readUnsignedVBAux_encode n [] 5 0 0 rest false hlen (by norm_num)
      (by simpa using hn)
    simpa [readUnsignedVB] using h
  · intro b1 b2 b3 b4 b5 rest h1 h1' h2 h2' h3 h3' h4 h4' h5 h5'
    have h := readUnsignedVBAux_allcont [b1, b2, b3, b4, b5] [] rest 0 0 false (by
      intro b hb
      simp at hb
      rcases hb with rfl | rfl | rfl | rfl | rfl <;> omega)
    simp only [List.length_cons, List.length_nil, List.nil_append,
      List.cons_append] at h
    norm_num at h
    simp [readUnsignedVB, h]

/-- C5 witness: the round-trip theorem applied at the concrete value 300. -/
theorem c5_unsigned_vb_roundtrip_witness :
    300 < 2 ^ 32 ∧
      readUnsignedVB ⟨encodeUnsignedVB 300 ++ [], 0, false⟩ =
        (300, ⟨encodeUnsignedVB 300 ++ [], (encodeUnsignedVB 300).length, false⟩) :=
  ⟨by norm_num, c5_unsigned_vb_roundtrip.1 300 [] (by norm_num)⟩

/-- C6 counterexample: the claim says a TAG2_3S32 group with lead byte
`0x15` decodes to `[0, 1, 1]`; the code decodes the three 2-bit lanes
`01 01 01` of `0x15` to `[1, 1, 1]`, so the claimed value is wrong. -/
theorem c6_tag2_3s32_counterexample :
    (readTag2_3S32 ⟨[0x15], 0, false⟩).1 ≠ [0, 1, 1] := by decide

/-- C6 (amended): decoding a TAG2_3S32 group whose lead byte is `0x15`
(top two bits `00`, selecting three 2-bit signed lanes `01`, `01`, `01`)
yields the three values `[1, 1, 1]`, consuming exactly the lead byte. -/
theorem c6_tag2_3s32_lead_0x15 (rest : List Nat) (e : Bool) :
    readTag2_3S32 ⟨0x15 :: rest, 0, e⟩ = ([1, 1, 1], ⟨0x15 :: rest, 1, e⟩) := by
  have h : readChar ⟨0x15 :: rest, 0, e⟩ = ((21 : Int), ⟨0x15 :: rest, 1, e⟩) := by
    simpa using readChar_at [] 0x15 rest e
  have ht : (21 : Int).toNat = 21 := rfl
  norm_num [readTag2_3S32, readByte, h, ht, signExtend2Bit, signExtendBits]
  decide

/-- C7: `shouldHaveFrame cfg idx` is exactly the test
`(idx mod I + P_num - 1) mod P_denom < P_num` (with C's truncating `%` on
`int`), and with the defaults `I = 32`, `P_num = 1`, `P_denom = 1` it is true
for every iteration index. -/
theorem c7_should_have_frame :
    (∀ (cfg : Config) (idx : Int), shouldHaveFrame cfg idx =
      decide ((idx.tmod cfg.frameIntervalI + cfg.frameIntervalPNum - 1).tmod
        cfg.frameIntervalPDenom < cfg.frameIntervalPNum)) ∧
    (∀ idx : Int, shouldHaveFrame defaultConfig idx = true) := by
  constructor
  · intro cfg idx
    rfl
  · intro idx
    simp [shouldHaveFrame, defaultConfig, Int.tmod_one]

/-- C8 (amended): MOTOR_0 aborts the decoder exactly when `motor0Index` is
unresolved (negative) and otherwise applies the prediction — any resolved
position, including 0, is accepted; HOME_COORD behaves the same on
`home0Index`; but HOME_COORD_1 aborts whenever `home1Index < 1`, i.e. also
when `GPS_home[1]` was resolved at field position 0, and applies the
prediction only for `home1Index ≥ 1`. -/
theorem c8_prediction_abort_conditions (cfg : Config) (i v : Nat)
    (cur : List Nat) (prev prev2 : Option (List Nat)) (home : List Nat) :
    ((applyPrediction cfg i .motor0 v cur prev prev2 home = .error ()) ↔
      cfg.motor0Index < 0) ∧
    (¬cfg.motor0Index < 0 → applyPrediction cfg i .motor0 v cur prev prev2 home =
      .ok ((v + cur.getD cfg.motor0Index.toNat 0) % 2 ^ 32)) ∧
    ((applyPrediction cfg i .homeCoord v cur prev prev2 home = .error ()) ↔
      cfg.home0Index < 0) ∧
    (¬cfg.home0Index < 0 → applyPrediction cfg i .homeCoord v cur prev prev2 home =
      .ok ((v + home.getD cfg.home0Index.toNat 0) % 2 ^ 32)) ∧
    ((applyPrediction cfg i .homeCoord1 v cur prev prev2 home = .error ()) ↔
      cfg.home1Index < 1) ∧
    (¬cfg.home1Index < 1 → applyPrediction cfg i .homeCoord1 v cur prev prev2 home =
      .ok ((v + home.getD cfg.home1Index.toNat 0) % 2 ^ 32)) := by
  refine ⟨?_, ?_, ?_, ?_, ?_, ?_⟩ <;> simp [applyPrediction]

/-- C8 witness: with `GPS_home[1]` resolved at position 2 the HOME_COORD_1
prediction is applied (no abort), adding the published home component. -/
theorem c8_prediction_abort_conditions_witness :
    ¬({ defaultConfig with home1Index := 2 } : Config).home1Index < 1 ∧
      applyPrediction { defaultConfig with home1Index := 2 } 0 .homeCoord1 5 []
        none none [10, 20, 30] =
        .ok ((5 + ([10, 20, 30] : List Nat).getD
          ({ defaultConfig with home1Index := 2 } : Config).home1Index.toNat 0) % 2 ^ 32) :=
  ⟨by decide,
    (c8_prediction_abort_conditions { defaultConfig with home1Index := 2 } 0 5 []
      none none [10, 20, 30]).2.2.2.2.2 (by decide)⟩

/-- C8 counterexample: `GPS_home[1]` resolved at the valid field position 0
(`home1Index = 0`); the claim says the prediction is applied without
aborting, but the code aborts (`home1Index < 1`). -/
theorem c8_counterexample :
    applyPrediction { defaultConfig with home1Index := 0 } 0 .homeCoord1 5 []
      none none [7, 9] = .error () := rfl

/-- The cell-estimation loop characterised: starting at `i` (with enough
fuel to reach 8) it returns the first `j ≥ i` with
`refV < j * vmax`, or 8 when no `j ≤ 7` qualifies. -/
theorem cellsLoop_spec :
    ∀ (fuel i : Nat) (refV vmax : Int), 1 ≤ i → i + fuel = 8 →
      i ≤ cellsLoop refV vmax fuel i ∧ cellsLoop refV vmax fuel i ≤ 8 ∧
      (cellsLoop refV vmax fuel i < 8 →
        refV < (cellsLoop refV vmax fuel i : Int) * vmax) ∧
      (∀ m : Nat, i ≤ m → m < cellsLoop refV vmax fuel i →
        ¬refV < (m : Int) * vmax) := by
  intro fuel
  induction fuel with
  | zero =>
    intro i refV vmax h1 h8
    have hi : i = 8 := by omega
    subst hi
    simp [cellsLoop]
    intro m hm1 hm2
    omega
  | succ fuel ih =>
    intro i refV vmax h1 h8
    have hi8 : i < 8 := by omega
    by_cases hc : refV < (i : Int) * vmax
    · have hr : cellsLoop refV vmax (fuel + 1) i = i := by
        simp [cellsLoop, hi8, hc]
      rw [hr]
      exact ⟨le_refl _, by omega, fun _ => hc, by omega⟩
    · have hr : cellsLoop refV vmax (fuel + 1) i = cellsLoop refV vmax fuel (i + 1) := by
        simp [cellsLoop, hi8, hc]
      rw [hr]
      obtain ⟨ha, hb, hcc, hd⟩ := ih (i + 1) refV vmax (by omega) (by omega)
      refine ⟨by omega, hb, hcc, ?_⟩
      intro m hm hmr
      by_cases hmi : m = i
      · subst hmi
        exact hc
      · exact hd m (by omega) hmr

/-- C9 (amended): `flightLogEstimateNumCells` returns the smallest integer
`n` in `[1, 7]` such that `vbat_to_millivolts(vbatref) / 100 <
n * vbatmaxcellvoltage`, and returns 8 (not 7) when no such `n` exists. -/
theorem c9_estimate_num_cells (cfg : Config) :
    (1 ≤ flightLogEstimateNumCells cfg ∧ flightLogEstimateNumCells cfg ≤ 8) ∧
    (flightLogEstimateNumCells cfg ≤ 7 →
      estimateRefVoltage cfg <
        (flightLogEstimateNumCells cfg : Int) * cfg.vbatmaxcellvoltage ∧
      ∀ m : Nat, 1 ≤ m → m < flightLogEstimateNumCells cfg →
        ¬estimateRefVoltage cfg < (m : Int) * cfg.vbatmaxcellvoltage) ∧
    (flightLogEstimateNumCells cfg = 8 →
      ∀ n : Nat, 1 ≤ n → n ≤ 7 →
        ¬estimateRefVoltage cfg < (n : Int) * cfg.vbatmaxcellvoltage) := by
  obtain ⟨ha, hb, hc, hd⟩ := cellsLoop_spec 7 1 (estimateRefVoltage cfg)
    cfg.vbatmaxcellvoltage (by norm_num) (by norm_num)
  have hdef : flightLogEstimateNumCells cfg =
      cellsLoop (estimateRefVoltage cfg) cfg.vbatmaxcellvoltage 7 1 := rfl
  refine ⟨⟨by omega, by omega⟩, ?_, ?_⟩
  · intro h7
    rw [hdef] at h7 ⊢
    exact ⟨hc (by omega), fun m hm hmr => hd m hm hmr⟩
  · intro h8 n hn1 hn7
    rw [hdef] at h8
    exact hd n hn1 (by omega)

/-- C9 witness: at the documented defaults (vbatref 4095, vbatscale 110,
vbatmaxcellvoltage 43) the estimate is 8, and indeed no `n ≤ 7` satisfies
the threshold (refVoltage is 363). -/
theorem c9_estimate_num_cells_witness :
    (1 ≤ flightLogEstimateNumCells defaultConfig ∧
      flightLogEstimateNumCells defaultConfig ≤ 8) ∧
      (¬estimateRefVoltage defaultConfig <
        ((3 : Nat) : Int) * defaultConfig.vbatmaxcellvoltage) :=
  ⟨(c9_estimate_num_cells defaultConfig).1,
    (c9_estimate_num_cells defaultConfig).2.2 (by decide) 3 (by decide) (by decide)⟩

/-- C9 counterexample: at the documented defaults no `n` in `[1, 7]` meets
the threshold (`refVoltage = 363 ≥ n * 43` for all `n ≤ 7`), so the claim
says the function returns 7 — but it returns 8. -/
theorem c9_counterexample :
    flightLogEstimateNumCells defaultConfig = 8 ∧
      ((List.range 7).all fun k =>
        !decide (estimateRefVoltage defaultConfig <
          ((k + 1 : Nat) : Int) * defaultConfig.vbatmaxcellvoltage)) = true := by
  constructor
  · decide
  · decide

/-- C10: the claim asserts `flightLogParse` terminates for every header
state the header parser can produce. The header line `P interval:0/1` yields
`frameIntervalPNum = 0`, `frameIntervalPDenom = 1`; then `shouldHaveFrame`
is false for every index, so the skipped-iterations loop in
parseIntraframe/parseInterframe never exits (for any fuel), and
`parseIntraframe` hangs whenever a previous frame exists (i.e. after the
first accepted keyframe). -/
theorem c10_skip_loop_nontermination :
    (∀ idx : Int, shouldHaveFrame
      { defaultConfig with frameIntervalPNum := 0, frameIntervalPDenom := 1 } idx = false) ∧
    (∀ fuel start : Nat, skipLoopAux
      { defaultConfig with frameIntervalPNum := 0, frameIntervalPDenom := 1 } fuel start = none) ∧
    (∀ (raw : Bool) (s : LoopState) (k : Nat), s.main.h1 = some k →
      parseIntraframe { defaultConfig with frameIntervalPNum := 0, frameIntervalPDenom := 1 }
        raw s = .diverge s) := by
  have hs : ∀ idx : Int, shouldHaveFrame
      { defaultConfig with frameIntervalPNum := 0, frameIntervalPDenom := 1 } idx = false := by
    intro idx
    simp [shouldHaveFrame, defaultConfig, Int.tmod_one]
  have hn : ∀ fuel start : Nat, skipLoopAux
      { defaultConfig with frameIntervalPNum := 0, frameIntervalPDenom := 1 } fuel start = none := by
    intro fuel
    induction fuel with
    | zero => intro start; rfl
    | succ fuel ih =>
      intro start
      simp [skipLoopAux, hs, ih]
  refine ⟨hs, hn, ?_⟩
  intro raw s k hk
  simp [parseIntraframe, hk, hn]

/-- The acceptance test of `completeIntraframe` (parser.c): raw mode, or
iteration counter and timestamp both at or above the recorded maxima. -/
def intraframeAccept (raw : Bool) (s : LoopState) : Prop :=
  raw = true ∨
    (((ringGet s.main s.main.h0).getD FLIGHT_LOG_FIELD_INDEX_ITERATION 0 : Int) ≥
        s.stats.fieldMax FLIGHT_LOG_FIELD_INDEX_ITERATION ∧
      ((ringGet s.main s.main.h0).getD FLIGHT_LOG_FIELD_INDEX_TIME 0 : Int) ≥
        s.stats.fieldMax FLIGHT_LOG_FIELD_INDEX_TIME)

instance (raw : Bool) (s : LoopState) : Decidable (intraframeAccept raw s) := by
  unfold intraframeAccept
  infer_instance

/-- C3: at keyframe completion the frame is accepted — main stream marked
valid and per-field statistics updated, then the history rotated (both
back-history pointers become the keyframe's row and the decode row
advances) — if and only if raw mode is on, or the frame's iteration counter
is at or above the recorded maximum iteration and its timestamp at or above
the recorded maximum timestamp; a keyframe failing the test invalidates the
main stream and clears both back-history slots, leaving the statistics and
the decode row unchanged. -/
theorem c3_complete_intraframe (cfg : Config) (raw : Bool) (s : LoopState)
    (fs fe : Nat) :
    ((completeIntraframe cfg raw s fs fe).main.valid = true ↔ intraframeAccept raw s) ∧
    (intraframeAccept raw s →
      (completeIntraframe cfg raw s fs fe).stats =
          updateFieldStatistics cfg s.stats (ringGet s.main s.main.h0) ∧
        (completeIntraframe cfg raw s fs fe).main.h1 = some s.main.h0 ∧
        (completeIntraframe cfg raw s fs fe).main.h2 = some s.main.h0 ∧
        (completeIntraframe cfg raw s fs fe).main.h0 = (s.main.h0 + 1) % 3) ∧
    (¬intraframeAccept raw s →
      (completeIntraframe cfg raw s fs fe).main.valid = false ∧
        (completeIntraframe cfg raw s fs fe).main.h1 = none ∧
        (completeIntraframe cfg raw s fs fe).main.h2 = none ∧
        (completeIntraframe cfg raw s fs fe).stats = s.stats ∧
        (completeIntraframe cfg raw s fs fe).main.h0 = s.main.h0) := by
  by_cases haccept : intraframeAccept raw s
  · have hacc := haccept
    unfold intraframeAccept at hacc
    simp only [completeIntraframe]
    rw [if_pos hacc]
    simp [emit, haccept]
  · have hacc := haccept
    unfold intraframeAccept at hacc
    simp only [completeIntraframe]
    rw [if_neg hacc]
    simp [emit, flightLoginvalidateStream, haccept]

/-- C3 witness: on the zeroed initial state (iteration 0 at recorded maximum
0, timestamp 0 at maximum 0) the keyframe is accepted and the history
rotates onto the decoded row. -/
theorem c3_complete_intraframe_witness :
    intraframeAccept false (initialLoopState []) ∧
    ((completeIntraframe defaultConfig false (initialLoopState []) 0 2).stats =
        updateFieldStatistics defaultConfig (initialLoopState []).stats
          (ringGet (initialLoopState []).main (initialLoopState []).main.h0) ∧
      (completeIntraframe defaultConfig false (initialLoopState []) 0 2).main.h1 =
        some (initialLoopState []).main.h0 ∧
      (completeIntraframe defaultConfig false (initialLoopState []) 0 2).main.h2 =
        some (initialLoopState []).main.h0 ∧
      (completeIntraframe defaultConfig false (initialLoopState []) 0 2).main.h0 =
        ((initialLoopState []).main.h0 + 1) % 3) :=
  ⟨by decide,
    (c3_complete_intraframe defaultConfig false (initialLoopState []) 0 2).2.1 (by decide)⟩

/-- C4 (amended): an event frame with an unknown event-kind byte stores the
`-1` sentinel as the event kind, the parse succeeds so parsing of subsequent
frames continues, and at completion the event callback IS invoked — the code
delivers the sentinel event record instead of suppressing the callback. -/
theorem c4_unknown_event_kind (cfg : Config) (raw : Bool) (s : LoopState)
    (h1 : (readByte s.cur).1 ≠ FLIGHT_LOG_EVENT_SYNC_BEEP)
    (h2 : (readByte s.cur).1 ≠ FLIGHT_LOG_EVENT_AUTOTUNE_CYCLE_START)
    (h3 : (readByte s.cur).1 ≠ FLIGHT_LOG_EVENT_AUTOTUNE_CYCLE_RESULT) :
    (∃ s', parseEventFrame cfg raw s = .ok s' ∧ s'.lastEvent.kind = -1 ∧
      s'.events = s.events) ∧
    (∀ s₂ : LoopState, (completeEventFrame s₂).events =
      s₂.events ++ [.eventReady s₂.lastEvent]) := by
  constructor
  · simp only [parseEventFrame, if_neg h1, if_neg h2, if_neg h3]
    exact ⟨_, rfl, rfl, rfl⟩
  · intro s₂
    rfl

/-- Does the trace contain an onEvent delivery? -/
def isEventCallback : Event → Bool
  | .eventReady _ => true
  | _ => false

def hasEventCallback (evs : List Event) : Bool := evs.any isEventCallback

/-- C4 counterexample: a log whose two E frames carry the unknown event-kind
byte 200. The stored kind becomes the sentinel (-1) — and yet the event
callback fires (twice), refuting "no event callback is invoked for that
frame". -/
theorem c4_counterexample :
    hasEventCallback
        ((runData defaultConfig false 10 (initialLoopState [69, 200, 69, 200])).1.events) =
        true ∧
      (runData defaultConfig false 10 (initialLoopState [69, 200, 69, 200])).1.lastEvent.kind =
        -1 := by
  constructor
  · decide
  · decide

/-- C1: in the DATA phase, when a frame is in progress and either the
just-completed frame's byte length exceeds `maxFrameLength` or the byte
following it is neither a known frame-kind marker nor a clean end-of-input,
the decoder treats the frame as corrupt: it increments that kind's corrupt
count and the total corrupt count, invalidates the main stream (clears the
valid flag), invokes the frame-ready callback with validity false and no
field vector, and rewinds the read cursor to the recorded frame start
(clearing the EOF state) before resuming the scan for the next marker. -/
theorem c1_corrupt_frame_handling (cfg : Config) (raw : Bool) (s : LoopState)
    (m : Nat) (hl : s.lastFrameType = some m)
    (hc : (readChar s.cur).2.pos - s.frameStart > cfg.maxFrameLength ∨
      ¬looksLikeFrameCompleted s.prematureEof (readChar s.cur).1) :
    ∃ s', dataStep cfg raw s = .next s' ∧
      s'.stats.corruptCount m = s.stats.corruptCount m + 1 ∧
      s'.stats.totalCorruptFrames = s.stats.totalCorruptFrames + 1 ∧
      s'.main.valid = false ∧
      s'.events = s.events ++ [.frameReady false none m 0 s.frameStart
        ((readChar s.cur).2.pos - s.frameStart)] ∧
      s'.cur.pos = s.frameStart ∧ s'.cur.eof = false ∧
      s'.lastFrameType = none ∧ s'.prematureEof = false := by
  have hnC : ¬((readChar s.cur).2.pos - s.frameStart ≤ cfg.maxFrameLength ∧
      looksLikeFrameCompleted s.prematureEof (readChar s.cur).1) := by
    rcases hc with hc | hc
    · intro hh
      omega
    · intro hh
      exact hc hh.2
  simp only [dataStep, hl]
  rw [if_neg hnC]
  refine ⟨_, rfl, ?_, ?_, ?_, ?_, ?_, ?_, ?_, ?_⟩ <;> simp [emit, bump]

/-- A DATA-phase state in the middle of the log `[69, 200, 0]`: an E frame
(marker at offset 0) has been parsed, the cursor sits at the unknown byte 0. -/
def corruptDemoState : LoopState :=
  { initialLoopState [69, 200, 0] with
    cur := ⟨[69, 200, 0], 2, false⟩, lastFrameType := some 69, frameStart := 1 }

/-- C1 witness: at `corruptDemoState` the next byte (0) is no frame marker
and not EOF, so the corrupt-frame path is taken. -/
theorem c1_corrupt_frame_handling_witness :
    ((readChar corruptDemoState.cur).2.pos - corruptDemoState.frameStart >
        defaultConfig.maxFrameLength ∨
      ¬looksLikeFrameCompleted corruptDemoState.prematureEof
        (readChar corruptDemoState.cur).1) ∧
    ∃ s', dataStep defaultConfig false corruptDemoState = .next s' ∧
      s'.stats.corruptCount 69 = corruptDemoState.stats.corruptCount 69 + 1 ∧
      s'.stats.totalCorruptFrames = corruptDemoState.stats.totalCorruptFrames + 1 ∧
      s'.main.valid = false ∧
      s'.events = corruptDemoState.events ++ [.frameReady false none 69 0
        corruptDemoState.frameStart
        ((readChar corruptDemoState.cur).2.pos - corruptDemoState.frameStart)] ∧
      s'.cur.pos = corruptDemoState.frameStart ∧ s'.cur.eof = false ∧
      s'.lastFrameType = none ∧ s'.prematureEof = false :=
  ⟨Or.inr (by decide),
    c1_corrupt_frame_handling defaultConfig false corruptDemoState 69 rfl
      (Or.inr (by decide))⟩

theorem ringSetAt_valid (m : MainState) (k : Nat) (v : List Nat) :
    (ringSetAt m k v).valid = m.valid := by
  unfold ringSetAt
  split <;> [skip; split] <;> rfl

theorem parseIntraframe_preserves (cfg : Config) (raw : Bool) (s : LoopState) :
    (parseIntraframe cfg raw s).out.events = s.events ∧
    (parseIntraframe cfg raw s).out.main.valid = s.main.valid := by
  unfold parseIntraframe
  dsimp only
  split
  · split
    · exact ⟨rfl, rfl⟩
    · split
      · exact ⟨rfl, rfl⟩
      · exact ⟨rfl, by simp [PRes.out, ringSetAt_valid]⟩
  · split
    · exact ⟨rfl, rfl⟩
    · exact ⟨rfl, by simp [PRes.out, ringSetAt_valid]⟩

theorem parseInterframe_preserves (cfg : Config) (raw : Bool) (s : LoopState) :
    (parseInterframe cfg raw s).out.events = s.events ∧
    (parseInterframe cfg raw s).out.main.valid = s.main.valid := by
  unfold parseInterframe
  dsimp only
  split
  · split
    · exact ⟨rfl, rfl⟩
    · split
      · exact ⟨rfl, rfl⟩
      · exact ⟨rfl, by simp [PRes.out, ringSetAt_valid]⟩
  · split
    · exact ⟨rfl, rfl⟩
    · exact ⟨rfl, by simp [PRes.out, ringSetAt_valid]⟩

theorem parseGPSFrame_preserves (cfg : Config) (raw : Bool) (s : LoopState) :
    (parseGPSFrame cfg raw s).out.events = s.events ∧
    (parseGPSFrame cfg raw s).out.main.valid = s.main.valid := by
  unfold parseGPSFrame
  split <;> exact ⟨rfl, rfl⟩

theorem parseGPSHomeFrame_preserves (cfg : Config) (raw : Bool) (s : LoopState) :
    (parseGPSHomeFrame cfg raw s).out.events = s.events ∧
    (parseGPSHomeFrame cfg raw s).out.main.valid = s.main.valid := by
  unfold parseGPSHomeFrame
  split <;> exact ⟨rfl, rfl⟩

theorem parseEventFrame_preserves (cfg : Config) (raw : Bool) (s : LoopState) :
    (parseEventFrame cfg raw s).out.events = s.events ∧
    (parseEventFrame cfg raw s).out.main.valid = s.main.valid := by
  by_cases h1 : (readByte s.cur).1 = FLIGHT_LOG_EVENT_SYNC_BEEP
  · simp [parseEventFrame, h1, PRes.out, FLIGHT_LOG_EVENT_SYNC_BEEP,
      FLIGHT_LOG_EVENT_AUTOTUNE_CYCLE_START, FLIGHT_LOG_EVENT_AUTOTUNE_CYCLE_RESULT]
  · by_cases h2 : (readByte s.cur).1 = FLIGHT_LOG_EVENT_AUTOTUNE_CYCLE_START
    · simp [parseEventFrame, h1, h2, PRes.out, FLIGHT_LOG_EVENT_SYNC_BEEP,
        FLIGHT_LOG_EVENT_AUTOTUNE_CYCLE_START, FLIGHT_LOG_EVENT_AUTOTUNE_CYCLE_RESULT]
    · by_cases h3 : (readByte s.cur).1 = FLIGHT_LOG_EVENT_AUTOTUNE_CYCLE_RESULT
      · simp [parseEventFrame, h1, h2, h3, PRes.out, FLIGHT_LOG_EVENT_SYNC_BEEP,
          FLIGHT_LOG_EVENT_AUTOTUNE_CYCLE_START, FLIGHT_LOG_EVENT_AUTOTUNE_CYCLE_RESULT]
      · simp [parseEventFrame, h1, h2, h3, PRes.out]

theorem parseDispatch_preserves (cfg : Config) (raw : Bool) (m : Nat) (s : LoopState) :
    (parseDispatch cfg raw m s).out.events = s.events ∧
    (parseDispatch cfg raw m s).out.main.valid = s.main.valid := by
  unfold parseDispatch
  split
  · exact parseIntraframe_preserves cfg raw s
  · split
    · exact parseInterframe_preserves cfg raw s
    · split
      · exact parseGPSFrame_preserves cfg raw s
      · split
        · exact parseGPSHomeFrame_preserves cfg raw s
        · exact parseEventFrame_preserves cfg raw s

theorem dataStepTail_preserves (cfg : Config) (raw : Bool) (command : Int)
    (s : LoopState) :
    (dataStepTail cfg raw command s).state.events = s.events ∧
    ((dataStepTail cfg raw command s).state.main.valid = true →
      s.main.valid = true) := by
  unfold dataStepTail
  dsimp only
  split
  · exact ⟨rfl, fun h => h⟩
  · split
    · rcases hp : parseDispatch cfg raw (command.toNat % 256)
          { s with frameStart := s.cur.pos } with s' | s' | s'
      · have hpre := parseDispatch_preserves cfg raw (command.toNat % 256)
          { s with frameStart := s.cur.pos }
        rw [hp] at hpre
        simp only [PRes.out] at hpre
        simp only [hp]
        constructor
        · split <;> simpa [StepRes.state] using hpre.1
        · split <;> (intro h; apply hpre.2.symm.trans; simpa [StepRes.state] using h)
      · have hpre := parseDispatch_preserves cfg raw (command.toNat % 256)
          { s with frameStart := s.cur.pos }
        rw [hp] at hpre
        simp only [PRes.out] at hpre
        simp only [hp]
        exact ⟨hpre.1, fun h => hpre.2 ▸ h⟩
      · have hpre := parseDispatch_preserves cfg raw (command.toNat % 256)
          { s with frameStart := s.cur.pos }
        rw [hp] at hpre
        simp only [PRes.out] at hpre
        simp only [hp]
        exact ⟨hpre.1, fun h => hpre.2 ▸ h⟩
    · constructor
      · split <;> rfl
      · split <;> (intro h; simp [StepRes.state] at h)

theorem completeInterframe_spec (cfg : Config) (raw : Bool) (s : LoopState)
    (fs fe : Nat) :
    (completeInterframe cfg raw s fs fe).events =
      s.events ++ [.frameReady s.main.valid (some (ringGet s.main s.main.h0)) 80
        cfg.mainFieldCount fs (fe - fs)] ∧
    (completeInterframe cfg raw s fs fe).main.valid = s.main.valid := by
  unfold completeInterframe
  dsimp only
  by_cases hv : s.main.valid = true <;> simp [hv, emit]

theorem completeIntraframe_spec (cfg : Config) (raw : Bool) (s : LoopState)
    (fs fe : Nat) :
    ∃ v : Bool, (completeIntraframe cfg raw s fs fe).events =
      s.events ++ [.frameReady v (some (ringGet s.main s.main.h0)) 73
        cfg.mainFieldCount fs (fe - fs)] ∧
      (completeIntraframe cfg raw s fs fe).main.valid = v := by
  by_cases haccept : intraframeAccept raw s
  · have hacc := haccept
    unfold intraframeAccept at hacc
    refine ⟨true, ?_⟩
    simp only [completeIntraframe]
    rw [if_pos hacc]
    simp [emit]
  · have hacc := haccept
    unfold intraframeAccept at hacc
    refine ⟨false, ?_⟩
    simp only [completeIntraframe]
    rw [if_neg hacc]
    simp [emit, flightLoginvalidateStream]

theorem completeGPSFrame_spec (cfg : Config) (s : LoopState) (fs fe : Nat) :
    (completeGPSFrame cfg s fs fe).events =
      s.events ++ [.frameReady s.gpsHomeValid (some s.lastGPS) 71
        cfg.gpsFieldCount fs (fe - fs)] ∧
    (completeGPSFrame cfg s fs fe).main.valid = s.main.valid :=
  ⟨rfl, rfl⟩

theorem completeGPSHomeFrame_spec (cfg : Config) (s : LoopState) (fs fe : Nat) :
    (completeGPSHomeFrame cfg s fs fe).events =
      s.events ++ [.frameReady true (some s.gpsHome0) 72
        cfg.gpsHomeFieldCount fs (fe - fs)] ∧
    (completeGPSHomeFrame cfg s fs fe).main.valid = s.main.valid :=
  ⟨rfl, rfl⟩

theorem completeEventFrame_spec (s : LoopState) :
    (completeEventFrame s).events = s.events ++ [.eventReady s.lastEvent] ∧
    (completeEventFrame s).main.valid = s.main.valid :=
  ⟨rfl, rfl⟩

def isPTrue : Event → Bool
  | .frameReady true _ 80 _ _ _ => true
  | _ => false

def isITrue : Event → Bool
  | .frameReady true _ 73 _ _ _ => true
  | _ => false

def noPTrueBeforeITrue : List Event → Bool
  | [] => true
  | e :: rest => if isITrue e then true else !isPTrue e && noPTrueBeforeITrue rest

theorem dataStep_invalid (cfg : Config) (raw : Bool) (s : LoopState)
    (h : s.main.valid = false) :
    ∃ Δ, (dataStep cfg raw s).state.events = s.events ++ Δ ∧
      (∀ e ∈ Δ, isPTrue e = false) ∧
      ((dataStep cfg raw s).state.main.valid = true → Δ.any isITrue = true) := by
  rcases hl : s.lastFrameType with _ | m
  · simp only [dataStep, hl]
    have ht := dataStepTail_preserves cfg raw (readChar s.cur).1
      { s with cur := (readChar s.cur).2, lastFrameType := none }
    refine ⟨[], by simpa using ht.1, by simp, fun hv => ?_⟩
    have hcontra := ht.2 hv
    simp only at hcontra
    rw [h] at hcontra
    exact absurd hcontra (by simp)
  · simp only [dataStep, hl]
    split
    · generalize hgen : updateFrameStats
        { s with cur := (readChar s.cur).2, lastFrameType := some m } m
        ((readChar s.cur).2.pos - s.frameStart) = s2
      have hs2e : s2.events = s.events := by
        rw [← hgen]
        rfl
      have hs2v : s2.main.valid = false := by
        rw [← hgen]
        exact h
      have ht := fun sMid => dataStepTail_preserves cfg raw (readChar s.cur).1 sMid
      by_cases h73 : m = 73
      · subst h73
        simp only [completeFrame]
        norm_num
        obtain ⟨v, hev, hval⟩ := completeIntraframe_spec cfg raw s2 s2.frameStart s2.cur.pos
        refine ⟨[.frameReady v (some (ringGet s2.main s2.main.h0)) 73
          cfg.mainFieldCount s2.frameStart (s2.cur.pos - s2.frameStart)], ?_, ?_, ?_⟩
        · rw [(ht _).1, hev, hs2e]
        · intro e he
          simp at he
          subst he
          cases v <;> rfl
        · intro hv
          have hmid := (ht _).2 hv
          rw [hval] at hmid
          subst hmid
          simp [isITrue]
      · by_cases h80 : m = 80
        · subst h80
          simp only [completeFrame]
          norm_num
          obtain ⟨hev, hval⟩ := completeInterframe_spec cfg raw s2 s2.frameStart s2.cur.pos
          refine ⟨[.frameReady s2.main.valid (some (ringGet s2.main s2.main.h0)) 80
            cfg.mainFieldCount s2.frameStart (s2.cur.pos - s2.frameStart)], ?_, ?_, ?_⟩
          · rw [(ht _).1, hev, hs2e]
          · intro e he
            simp at he
            subst he
            rw [hs2v]
            rfl
          · intro hv
            have hmid := (ht _).2 hv
            rw [hval, hs2v] at hmid
            exact absurd hmid (by simp)
        · by_cases h71 : m = 71
          · subst h71
            simp only [completeFrame]
            norm_num
            obtain ⟨hev, hval⟩ := completeGPSFrame_spec cfg s2 s2.frameStart s2.cur.pos
            refine ⟨[.frameReady s2.gpsHomeValid (some s2.lastGPS) 71
              cfg.gpsFieldCount s2.frameStart (s2.cur.pos - s2.frameStart)], ?_, ?_, ?_⟩
            · rw [(ht _).1, hev, hs2e]
            · intro e he
              simp at he
              subst he
              cases hgv : s2.gpsHomeValid <;> rfl
            · intro hv
              have hmid := (ht _).2 hv
              rw [hval, hs2v] at hmid
              exact absurd hmid (by simp)
          · by_cases h72 : m = 72
            · subst h72
              simp only [completeFrame]
              norm_num
              obtain ⟨hev, hval⟩ := completeGPSHomeFrame_spec cfg s2 s2.frameStart s2.cur.pos
              refine ⟨[.frameReady true (some s2.gpsHome0) 72
                cfg.gpsHomeFieldCount s2.frameStart (s2.cur.pos - s2.frameStart)], ?_, ?_, ?_⟩
              · rw [(ht _).1, hev, hs2e]
              · intro e he
                simp at he
                subst he
                rfl
              · intro hv
                have hmid := (ht _).2 hv
                rw [hval, hs2v] at hmid
                exact absurd hmid (by simp)
            · by_cases h69 : m = 69
              · subst h69
                simp only [completeFrame]
                norm_num
                obtain ⟨hev, hval⟩ := completeEventFrame_spec s2
                refine ⟨[.eventReady s2.lastEvent], ?_, ?_, ?_⟩
                · rw [(ht _).1, hev, hs2e]
                · intro e he
                  simp at he
                  subst he
                  rfl
                · intro hv
                  have hmid := (ht _).2 hv
                  rw [hval, hs2v] at hmid
                  exact absurd hmid (by simp)
              · simp only [completeFrame, if_neg h73, if_neg h80, if_neg h71,
                  if_neg h72, if_neg h69]
                refine ⟨[], ?_, by simp, ?_⟩
                · rw [(ht _).1, hs2e]
                  simp
                · intro hv
                  have hmid := (ht _).2 hv
                  rw [hs2v] at hmid
                  exact absurd hmid (by simp)
    · refine ⟨[.frameReady false none m 0 s.frameStart
        ((readChar s.cur).2.pos - s.frameStart)], ?_, ?_, ?_⟩
      · simp [StepRes.state, emit]
      · intro e he
        simp at he
        subst he
        rfl
      · intro hv
        simp [StepRes.state, emit] at hv

theorem dataStep_events_mono (cfg : Config) (raw : Bool) (s : LoopState) :
    ∃ Δ, (dataStep cfg raw s).state.events = s.events ++ Δ := by
  rcases hl : s.lastFrameType with _ | m
  · simp only [dataStep, hl]
    have ht := dataStepTail_preserves cfg raw (readChar s.cur).1
      { s with cur := (readChar s.cur).2, lastFrameType := none }
    exact ⟨[], by simpa using ht.1⟩
  · simp only [dataStep, hl]
    split
    · generalize hgen : updateFrameStats
        { s with cur := (readChar s.cur).2, lastFrameType := some m } m
        ((readChar s.cur).2.pos - s.frameStart) = s2
      have hs2e : s2.events = s.events := by
        rw [← hgen]
        rfl
      have ht := fun sMid => dataStepTail_preserves cfg raw (readChar s.cur).1 sMid
      by_cases h73 : m = 73
      · subst h73
        simp only [completeFrame]
        norm_num
        obtain ⟨v, hev, _⟩ := completeIntraframe_spec cfg raw s2 s2.frameStart s2.cur.pos
        exact ⟨_, by rw [(ht _).1, hev, hs2e]⟩
      · by_cases h80 : m = 80
        · subst h80
          simp only [completeFrame]
          norm_num
          obtain ⟨hev, _⟩ := completeInterframe_spec cfg raw s2 s2.frameStart s2.cur.pos
          exact ⟨_, by rw [(ht _).1, hev, hs2e]⟩
        · by_cases h71 : m = 71
          · subst h71
            simp only [completeFrame]
            norm_num
            obtain ⟨hev, _⟩ := completeGPSFrame_spec cfg s2 s2.frameStart s2.cur.pos
            exact ⟨_, by rw [(ht _).1, hev, hs2e]⟩
          · by_cases h72 : m = 72
            · subst h72
              simp only [completeFrame]
              norm_num
              obtain ⟨hev, _⟩ := completeGPSHomeFrame_spec cfg s2 s2.frameStart s2.cur.pos
              exact ⟨_, by rw [(ht _).1, hev, hs2e]⟩
            · by_cases h69 : m = 69
              · subst h69
                simp only [completeFrame]
                norm_num
                obtain ⟨hev, _⟩ := completeEventFrame_spec s2
                exact ⟨_, by rw [(ht _).1, hev, hs2e]⟩
              · simp only [completeFrame, if_neg h73, if_neg h80, if_neg h71,
                  if_neg h72, if_neg h69]
                refine ⟨[], ?_⟩
                rw [(ht _).1, hs2e]
                simp
    · exact ⟨[.frameReady false none m 0 s.frameStart
        ((readChar s.cur).2.pos - s.frameStart)], by simp [StepRes.state, emit]⟩

theorem runData_events_mono (cfg : Config) (raw : Bool) :
    ∀ (fuel : Nat) (s : LoopState),
      ∃ Δ, (runData cfg raw fuel s).1.events = s.events ++ Δ := by
  intro fuel
  induction fuel with
  | zero =>
    intro s
    exact ⟨[], by simp [runData]⟩
  | succ fuel ih =>
    intro s
    obtain ⟨Δ, hΔ⟩ := dataStep_events_mono cfg raw s
    cases hstep : dataStep cfg raw s with
    | next s' =>
      rw [hstep] at hΔ
      simp only [StepRes.state] at hΔ
      obtain ⟨Δ', hΔ'⟩ := ih s'
      refine ⟨Δ ++ Δ', ?_⟩
      have hrun : runData cfg raw (fuel + 1) s = runData cfg raw fuel s' := by
        simp [runData, hstep]
      rw [hrun, hΔ', hΔ, List.append_assoc]
    | done s' =>
      rw [hstep] at hΔ
      simp only [StepRes.state] at hΔ
      exact ⟨Δ, by simp [runData, hstep, hΔ]⟩
    | fatal s' =>
      rw [hstep] at hΔ
      simp only [StepRes.state] at hΔ
      exact ⟨Δ, by simp [runData, hstep, hΔ]⟩
    | diverge s' =>
      rw [hstep] at hΔ
      simp only [StepRes.state] at hΔ
      exact ⟨Δ, by simp [runData, hstep, hΔ]⟩

theorem noPTrue_of_all (Δ : List Event) (h : ∀ e ∈ Δ, isPTrue e = false) :
    noPTrueBeforeITrue Δ = true := by
  induction Δ with
  | nil => rfl
  | cons e rest ih =>
    simp only [noPTrueBeforeITrue]
    split
    · rfl
    · rw [h e (by simp)]
      simpa using ih (fun x hx => h x (by simp [hx]))

theorem noPTrue_append (Δ rest : List Event) (h : ∀ e ∈ Δ, isPTrue e = false) :
    (Δ.any isITrue = true → noPTrueBeforeITrue (Δ ++ rest) = true) ∧
    (Δ.any isITrue = false → noPTrueBeforeITrue (Δ ++ rest) = noPTrueBeforeITrue rest) := by
  induction Δ with
  | nil => exact ⟨by simp, fun _ => by simp⟩
  | cons e Δ ih =>
    have hIH := ih (fun x hx => h x (by simp [hx]))
    constructor
    · intro hany
      simp only [List.cons_append, noPTrueBeforeITrue]
      split
      · rfl
      · rename_i hIe
        have hIe' : isITrue e = false := by
          cases hie : isITrue e
          · rfl
          · exact absurd hie hIe
        have hΔany : Δ.any isITrue = true := by
          simpa [List.any_cons, hIe'] using hany
        rw [h e (by simp)]
        simpa using hIH.1 hΔany
    · intro hany
      rw [List.any_cons] at hany
      have hIe : isITrue e = false := by
        cases hie : isITrue e
        · rfl
        · rw [hie] at hany
          simp at hany
      have hΔany : Δ.any isITrue = false := by
        cases hda : Δ.any isITrue
        · rfl
        · rw [hda] at hany
          simp at hany
      simp only [List.cons_append, noPTrueBeforeITrue]
      rw [if_neg (by simp [hIe])]
      rw [h e (by simp)]
      simpa using hIH.2 hΔany

theorem runData_noPTrue (cfg : Config) (raw : Bool) :
    ∀ (fuel : Nat) (s : LoopState), s.main.valid = false →
      noPTrueBeforeITrue ((runData cfg raw fuel s).1.events.drop s.events.length) =
        true := by
  intro fuel
  induction fuel with
  | zero =>
    intro s _
    simp [runData, List.drop_length, noPTrueBeforeITrue]
  | succ fuel ih =>
    intro s h
    obtain ⟨Δ, hΔe, hΔp, hΔv⟩ := dataStep_invalid cfg raw s h
    cases hstep : dataStep cfg raw s with
    | next s' =>
      rw [hstep] at hΔe hΔv
      simp only [StepRes.state] at hΔe hΔv
      have hrun : runData cfg raw (fuel + 1) s = runData cfg raw fuel s' := by
        simp [runData, hstep]
      rw [hrun]
      obtain ⟨Δ', hΔ'⟩ := runData_events_mono cfg raw fuel s'
      cases hany : Δ.any isITrue with
      | true =>
        rw [hΔ', hΔe, List.append_assoc, List.drop_left]
        exact (noPTrue_append Δ Δ' hΔp).1 hany
      | false =>
        have hvalid' : s'.main.valid = false := by
          cases hv' : s'.main.valid
          · rfl
          · have := hΔv hv'
            rw [hany] at this
            exact absurd this (by simp)
        have hrec := ih s' hvalid'
        rw [hΔ'] at hrec
        rw [List.drop_left] at hrec
        rw [hΔ', hΔe, List.append_assoc, List.drop_left]
        rw [(noPTrue_append Δ Δ' hΔp).2 hany]
        exact hrec
    | done s' =>
      rw [hstep] at hΔe
      simp only [StepRes.state] at hΔe
      have hrun : runData cfg raw (fuel + 1) s = (s', .finished) := by
        simp [runData, hstep]
      rw [hrun]
      simp only
      rw [hΔe, List.drop_left]
      exact noPTrue_of_all Δ hΔp
    | fatal s' =>
      rw [hstep] at hΔe
      simp only [StepRes.state] at hΔe
      have hrun : runData cfg raw (fuel + 1) s = (s', .fatal) := by
        simp [runData, hstep]
      rw [hrun]
      simp only
      rw [hΔe, List.drop_left]
      exact noPTrue_of_all Δ hΔp
    | diverge s' =>
      rw [hstep] at hΔe
      simp only [StepRes.state] at hΔe
      have hrun : runData cfg raw (fuel + 1) s = (s', .diverge) := by
        simp [runData, hstep]
      rw [hrun]
      simp only
      rw [hΔe, List.drop_left]
      exact noPTrue_of_all Δ hΔp


/-- C2: for every input, once the main stream has been invalidated, no delta
(P) frame is delivered through the frame-ready callback with validity true
until a subsequent keyframe has been accepted — i.e. in the callback trace
produced from any invalid state, every valid-P delivery is preceded by a
valid-I delivery; and the P-frame completion step never changes the
main-stream-valid flag (in particular never sets it to true). -/
theorem c2_no_valid_p_until_keyframe :
    (∀ (cfg : Config) (raw : Bool) (fuel : Nat) (s : LoopState),
      s.main.valid = false → s.events = [] →
      noPTrueBeforeITrue ((runData cfg raw fuel s).1.events) = true) ∧
    (∀ (cfg : Config) (raw : Bool) (s : LoopState) (fs fe : Nat),
      (completeInterframe cfg raw s fs fe).main.valid = s.main.valid) := by
  constructor
  · intro cfg raw fuel s hv he
    have hmain := runData_noPTrue cfg raw fuel s hv
    rw [he] at hmain
    simpa using hmain
  · intro cfg raw s fs fe
    exact (completeInterframe_spec cfg raw s fs fe).2

/-- C2 witness: a log P-I-P from the invalid initial state; the trace is a
desynced P (validity false), an accepted I, then a valid P — satisfying the
"no valid P before an accepted I" discipline. -/
theorem c2_no_valid_p_until_keyframe_witness :
    (initialLoopState [80, 5, 73, 7, 80, 3]).main.valid = false ∧
    (initialLoopState [80, 5, 73, 7, 80, 3]).events = [] ∧
    noPTrueBeforeITrue ((runData defaultConfig false 10
      (initialLoopState [80, 5, 73, 7, 80, 3])).1.events) = true :=
  ⟨rfl, rfl, c2_no_valid_p_until_keyframe.1 defaultConfig false 10
    (initialLoopState [80, 5, 73, 7, 80, 3]) rfl rfl⟩

/-- C4 witness: the unknown-kind theorem applied to a one-byte event body
`200` (not one of the three known kinds). -/
theorem c4_unknown_event_kind_witness :
    (readByte (initialLoopState [200]).cur).1 ≠ FLIGHT_LOG_EVENT_SYNC_BEEP ∧
    ((∃ s', parseEventFrame defaultConfig false (initialLoopState [200]) = .ok s' ∧
        s'.lastEvent.kind = -1 ∧ s'.events = (initialLoopState [200]).events) ∧
      (∀ s₂ : LoopState, (completeEventFrame s₂).events =
        s₂.events ++ [.eventReady s₂.lastEvent])) :=
  ⟨by decide, c4_unknown_event_kind defaultConfig false (initialLoopState [200])
    (by decide) (by decide) (by decide)⟩
